import Mathlib

/-!
# Multithreaded HTTP server: the URI lock registry, the handlers and the audit log

A shallow embedding of `asgn4/httpserver.c`.

* C strings are byte buffers (`List Nat`); a `0` byte, or the end of the list,
  terminates the string, exactly as the loops of the source stop at the NUL byte.
* `unsigned int` arithmetic is arithmetic on `Nat` modulo `2 ^ 32`.
* Global state (`lock_table`, the heap, the reader/writer locks, the files) is an
  explicit `World`; the handlers pass it along and record what they do in a trace.
* Results of calls into the operating system and into the connection library are
  supplied by an `Env` record, one field for each call site.
-/

namespace HttpServer

/-! ## C strings -/

/-- The string held in a buffer: the bytes before the first NUL. -/
def cstr (s : List Nat) : List Nat := s.takeWhile (fun c => c ≠ 0)

/-- The bytes of a string literal. -/
def bytes (s : String) : List Nat := s.toList.map Char.toNat

/-- Libc `strcmp`: walks both strings until they differ or both end; the end of a
buffer counts as the terminating NUL. The result is zero exactly for equal strings. -/
def strcmp : List Nat → List Nat → Int
  | [], [] => 0
  | [], b :: _ => -(b : Int)
  | a :: _, [] => (a : Int)
  | a :: as, b :: bs =>
    if a ≠ b then (a : Int) - (b : Int) else if a = 0 then 0 else strcmp as bs

/-- Libc `strdup`: a fresh copy of the string, up to its NUL. -/
def strdup (s : List Nat) : List Nat := cstr s

/-! ## `hash_uri` -/

/-- `#define LOCK_TABLE_SIZE 1024`. -/
def LOCK_TABLE_SIZE : Nat := 1024

/-- Modulus of `unsigned int` arithmetic. -/
def UINT_MOD : Nat := 2 ^ 32

/-- Conversion of a `char` operand to `unsigned int` in `hash * 31 + uri[i]`.
Bytes up to 127 keep their value; with a signed `char` the bytes from 128 on are
negative and wrap around. -/
def char_to_uint (c : Nat) : Nat :=
  if c < 128 then c else (c + (UINT_MOD - 256)) % UINT_MOD

/-- The loop of `hash_uri`: `for (i = 0; uri[i] != 0; i++) hash = hash * 31 + uri[i]`. -/
def hash_loop (hash : Nat) : List Nat → Nat
  | [] => hash
  | c :: rest =>
    if c = 0 then hash else hash_loop ((hash * 31 + char_to_uint c) % UINT_MOD) rest

/-- `unsigned int hash_uri(char *uri)`. -/
def hash_uri (uri : List Nat) : Nat := hash_loop 0 uri % LOCK_TABLE_SIZE

/-! ## World state -/

/-- `lock_entry_t`: the owned copy of the URI and the embedded reader/writer lock,
identified by its address. The `next` pointer is the tail of the list of the bucket. -/
structure lock_entry_t where
  uri : List Nat
  rwlock : Nat
deriving DecidableEq, Repr

/-- How a reader/writer lock is held. -/
inductive LockMode where
  | rd
  | wr
deriving DecidableEq, Repr

/-- The process state the handlers act on. -/
structure World where
  /-- `lock_entry_t *lock_table[LOCK_TABLE_SIZE]`: one chain for each bucket. -/
  lock_table : List (List lock_entry_t)
  /-- Next address `malloc` hands out; entries are not freed while the server runs. -/
  heap_next : Nat
  /-- Reader/writer locks currently held, with the mode of each hold. -/
  held : List (Nat × LockMode)
  /-- Files by path; the first binding of a path is the current one. -/
  files : List (List Nat × List Nat)
deriving DecidableEq, Repr

/-- State at start-up: `lock_table = { NULL }`, nothing locked. -/
def World.init (files : List (List Nat × List Nat)) : World :=
  { lock_table := List.replicate LOCK_TABLE_SIZE [], heap_next := 1, held := [], files := files }

/-! ## `get_uri_lock` -/

/-- What the allocation steps of `get_uri_lock` do when a new entry is needed. -/
inductive AllocOutcome where
  | ok
  | malloc_null
  | strdup_null
  | rwlock_init_fail
deriving DecidableEq, Repr

/-- The `while (entry != NULL)` walk of `get_uri_lock` along one chain. -/
def chain_find (uri : List Nat) : List lock_entry_t → Option Nat
  | [] => none
  | entry :: next =>
    if strcmp entry.uri uri = 0 then some entry.rwlock else chain_find uri next

/-- `pthread_rwlock_t *get_uri_lock(char *uri)`. The result is the address of the
lock, `none` for `NULL`. The mutex around the body is not modelled: calls are
executed one after the other. -/
def get_uri_lock (uri : List Nat) (alloc : AllocOutcome) (w : World) : Option Nat × World :=
  let index := hash_uri uri
  match chain_find uri (w.lock_table.getD index []) with
  | some lock => (some lock, w)
  | none =>
    match alloc with
    | AllocOutcome.malloc_null => (none, w)
    | AllocOutcome.strdup_null => (none, w)
    | AllocOutcome.rwlock_init_fail => (none, w)
    | AllocOutcome.ok =>
      let new_entry : lock_entry_t := { uri := strdup uri, rwlock := w.heap_next }
      (some new_entry.rwlock,
        { w with
          lock_table := w.lock_table.set index (new_entry :: w.lock_table.getD index [])
          heap_next := w.heap_next + 1 })

/-- A sequence of `get_uri_lock` calls, run in order; the handles returned, in call order,
and the final state. -/
def run_lookups : List (List Nat × AllocOutcome) → World → List (Option Nat) × World
  | [], w => ([], w)
  | (uri, alloc) :: rest, w =>
    let r := get_uri_lock uri alloc w
    let rs := run_lookups rest r.2
    (r.1 :: rs.1, rs.2)

/-! ## Files -/

/-- Contents of the file at a path, if it exists. -/
def file_lookup (path : List Nat) (w : World) : Option (List Nat) :=
  w.files.lookup (cstr path)

/-- Libc `access(path, F_OK) == 0`: the file exists. -/
def access_F_OK (path : List Nat) (w : World) : Bool :=
  (file_lookup path w).isSome

/-- The file at a path now has the given contents. -/
def file_store (path : List Nat) (data : List Nat) (w : World) : World :=
  { w with files := (cstr path, data) :: w.files }

/-- Linux `errno` values tested by the handlers. -/
def ENOENT : Nat := 2

/-- Linux `errno` value: permission denied. -/
def EACCES : Nat := 13

/-- Linux `errno` value: is a directory. -/
def EISDIR : Nat := 21

/-! ## Reader/writer locks -/

/-- Libc `pthread_rwlock_wrlock`: returns once nobody holds the lock; `none` when the
lock is held, in which case the caller stays blocked in this state. -/
def pthread_rwlock_wrlock (lock : Nat) (w : World) : Option World :=
  if w.held.any (fun h => h.1 = lock) then none
  else some { w with held := (lock, LockMode.wr) :: w.held }

/-- Libc `pthread_rwlock_rdlock`: returns once no writer holds the lock. -/
def pthread_rwlock_rdlock (lock : Nat) (w : World) : Option World :=
  if (lock, LockMode.wr) ∈ w.held then none
  else some { w with held := (lock, LockMode.rd) :: w.held }

/-- Libc `pthread_rwlock_unlock`: drops one hold of the lock. -/
def pthread_rwlock_unlock (lock : Nat) (w : World) : World :=
  { w with held := w.held.eraseP (fun h => h.1 = lock) }

/-! ## Requests, responses, connections -/

/-- Modelled from the spec: `response.h` is absent. A response is a constant record
selected by the handlers; only its numeric status is used by the server code. -/
structure Response_t where
  code : Nat
deriving DecidableEq, Repr

/-- Modelled from the spec: `response.h` is absent; 200 OK. -/
def RESPONSE_OK : Response_t := ⟨200⟩

/-- Modelled from the spec: `response.h` is absent; 201 Created. -/
def RESPONSE_CREATED : Response_t := ⟨201⟩

/-- Modelled from the spec: `response.h` is absent; 400 Bad Request. -/
def RESPONSE_BAD_REQUEST : Response_t := ⟨400⟩

/-- Modelled from the spec: `response.h` is absent; 403 Forbidden. -/
def RESPONSE_FORBIDDEN : Response_t := ⟨403⟩

/-- Modelled from the spec: `response.h` is absent; 404 Not Found. -/
def RESPONSE_NOT_FOUND : Response_t := ⟨404⟩

/-- Modelled from the spec: `response.h` is absent; 500 Internal Server Error. -/
def RESPONSE_INTERNAL_SERVER_ERROR : Response_t := ⟨500⟩

/-- Modelled from the spec: `response.h` is absent; 501 Not Implemented. -/
def RESPONSE_NOT_IMPLEMENTED : Response_t := ⟨501⟩

/-- Modelled from the spec: `response.h` is absent; 505 HTTP Version Not Supported. -/
def RESPONSE_VERSION_NOT_SUPPORTED : Response_t := ⟨505⟩

/-- Modelled from the spec: `response.h` is absent; the numeric status of a response. -/
def response_get_code (res : Response_t) : Nat := res.code

/-- Modelled from the spec: `request.h` is absent. The request constants the server
compares against, and any other request constant, known by its method string. -/
inductive Request_t where
  | REQUEST_GET
  | REQUEST_PUT
  | other (name : List Nat)
deriving DecidableEq, Repr

/-- Modelled from the spec: `request.h` is absent; the method string of a request. -/
def request_get_str : Request_t → List Nat
  | Request_t.REQUEST_GET => bytes "GET"
  | Request_t.REQUEST_PUT => bytes "PUT"
  | Request_t.other name => name

/-- Modelled from the spec: `connection.h` is absent. What a parsed connection exposes
to the handlers: `conn_get_request`, `conn_get_uri`, the result of
`conn_get_header(conn, "Request-Id")` (`none` for `NULL`), and the message body that
`conn_recv_file` stores in the temporary file. -/
structure conn_t where
  request : Request_t
  uri : List Nat
  request_id : Option (List Nat)
  body : List Nat
deriving DecidableEq, Repr

/-- Results of the calls a handler makes, one field for each call site. -/
structure Env where
  /-- `conn_parse`: `none` for `NULL` (parsed), else the error response. -/
  conn_parse : Option Response_t
  /-- `mkstemp`: `false` for `-1`. -/
  mkstemp : Bool
  /-- `conn_recv_file`: `none` for `NULL` (body staged), else the error response. -/
  conn_recv_file : Option Response_t
  /-- `lseek(temp, 0, SEEK_END)`: `false` for `-1`. -/
  lseek_end : Bool
  /-- `lseek(temp, 0, SEEK_SET)`: `false` for `-1`. -/
  lseek_set : Bool
  /-- `malloc`, `strdup`, `pthread_rwlock_init` inside `get_uri_lock`. -/
  alloc : AllocOutcome
  /-- `open` of the URI path: the `errno` of a failure forced from outside. -/
  open_errno : Option Nat
  /-- `pass_n_bytes(temp, fd, file_size)`: `some k` when it fails after `k` bytes. -/
  pass_fail : Option Nat
  /-- `fstat`: `false` for a negative result. -/
  fstat : Bool
  /-- `conn_send_file`: `none` for `NULL` (sent), else the error response. -/
  conn_send_file : Option Response_t
deriving DecidableEq, Repr

/-! ## Traces -/

/-- The three handlers `handle_connection` dispatches to. -/
inductive Handler where
  | put
  | get
  | unsupported
deriving DecidableEq, Repr

/-- The two descriptors a handler closes. -/
inductive Desc where
  | temp
  | fd
deriving DecidableEq, Repr

/-- What a handler does, in program order. -/
inductive Event where
  | call (h : Handler)
  | conn_parse (res : Option Response_t)
  | conn_send_response (res : Response_t)
  | conn_recv_file (res : Option Response_t)
  | conn_send_file (data : List Nat) (res : Option Response_t)
  | stderr (line : List Nat)
  | mkstemp (ok : Bool)
  | lseek_end (ok : Bool)
  | lseek_set (ok : Bool)
  | get_uri_lock (uri : List Nat) (lock : Option Nat)
  | wrlock (lock : Nat)
  | rdlock (lock : Nat)
  | rdlock_null
  | wait (lock : Nat)
  | unlock (lock : Nat)
  | access (uri : List Nat) (found : Bool)
  | open_ (uri : List Nat) (errno : Option Nat)
  | fstat (ok : Bool)
  | pass_n_bytes (ok : Bool)
  | close (d : Desc)
  | unlink_temp
  | conn_delete
deriving DecidableEq, Repr

/-- How the execution of a handler ends. -/
inductive Status where
  /-- The handler returned to its caller. -/
  | returned
  /-- The handler waits for a lock that is held. -/
  | blocked
  /-- The handler passed `NULL` to `pthread_rwlock_rdlock`: undefined behaviour. -/
  | undefined
deriving DecidableEq, Repr

/-- Final state, trace and status of one execution of a handler. -/
structure Outcome where
  world : World
  trace : List Event
  status : Status
deriving DecidableEq, Repr

/-- The handlers entered during a trace, in order. -/
def handler_calls (t : List Event) : List Handler :=
  t.filterMap (fun e => match e with | Event.call h => some h | _ => none)

/-- The responses passed to `conn_send_response` during a trace, in order. -/
def sent_responses (t : List Event) : List Response_t :=
  t.filterMap (fun e => match e with | Event.conn_send_response r => some r | _ => none)

/-- The lines written to standard error during a trace, in order. -/
def stderr_lines (t : List Event) : List (List Nat) :=
  t.filterMap (fun e => match e with | Event.stderr l => some l | _ => none)

/-- A read from the client socket. -/
def is_socket_read : Event → Bool
  | Event.conn_parse _ => true
  | Event.conn_recv_file _ => true
  | _ => false

/-- The write lock is taken. -/
def is_wrlock : Event → Bool
  | Event.wrlock _ => true
  | _ => false

/-- A use of the lock registry or of a reader/writer lock. -/
def is_lock_event : Event → Bool
  | Event.get_uri_lock _ _ => true
  | Event.wrlock _ => true
  | Event.rdlock _ => true
  | Event.rdlock_null => true
  | Event.wait _ => true
  | Event.unlock _ => true
  | _ => false

/-! ## `audit` -/

/-- An argument of `fprintf`. -/
inductive Arg where
  | str (s : List Nat)
  | int (n : Nat)
deriving DecidableEq, Repr

/-- Conversion `%d` of a non-negative value: its decimal digits. -/
def fmt_d (n : Nat) : List Nat := (Nat.toDigits 10 n).map Char.toNat

/-- The output of `fprintf` for a format with `%s` and `%d` conversions. -/
def fprintf : List Nat → List Arg → List Nat
  | [], _ => []
  | 37 :: 115 :: fmt, Arg.str s :: args => cstr s ++ fprintf fmt args
  | 37 :: 100 :: fmt, Arg.int n :: args => fmt_d n ++ fprintf fmt args
  | c :: fmt, args => c :: fprintf fmt args

/-- `void audit(conn_t *conn, const Response_t *res)`: one line on standard error. -/
def audit (conn : conn_t) (res : Response_t) (t : List Event) : List Event :=
  let oper := request_get_str conn.request
  let uri := conn.uri
  let status_code := response_get_code res
  match conn.request_id with
  | some request_id =>
    t ++ [Event.stderr (fprintf (bytes "%s,%s,%d,%s\n")
      [Arg.str oper, Arg.str uri, Arg.int status_code, Arg.str request_id])]
  | none =>
    t ++ [Event.stderr (fprintf (bytes "%s,%s,%d,0\n")
      [Arg.str oper, Arg.str uri, Arg.int status_code])]

/-- The audit line as the specification words it: `METHOD,URI,STATUS,REQUEST_ID` and a
newline, the request id being the header value, or the literal `0` when there is none. -/
def audit_record (method uri : List Nat) (status : Nat) (request_id : Option (List Nat)) :
    List Nat :=
  method ++ bytes "," ++ uri ++ bytes "," ++ fmt_d status ++ bytes "," ++
    request_id.getD (bytes "0") ++ bytes "\n"

/-- The specified audit line for a connection and a status. -/
def expected_audit (conn : conn_t) (status : Nat) : List Nat :=
  audit_record (cstr (request_get_str conn.request)) (cstr conn.uri) status
    (conn.request_id.map cstr)

/-- The comma-separated fields of a line that ends in a newline. -/
def csv_fields (line : List Nat) : List (List Nat) :=
  line.dropLast.splitOn 44

/-! ## Handlers -/

/-- Modelled from the spec: `connection.h` is absent; sending a response is recorded
in the trace. -/
def conn_send_response (res : Response_t) (t : List Event) : List Event :=
  t ++ [Event.conn_send_response res]

/-- `void handle_unsupported(conn_t *conn)`. -/
def handle_unsupported (conn : conn_t) (w : World) : Outcome :=
  let t : List Event := [Event.call Handler.unsupported]
  let res := RESPONSE_NOT_IMPLEMENTED
  let t := conn_send_response res t
  let t := audit conn res t
  ⟨w, t, Status.returned⟩

/-- Libc `open(uri, O_RDONLY)`: fails with the forced `errno`, or with `ENOENT` when
there is no such file; otherwise gives access to the contents. -/
def open_rdonly (uri : List Nat) (env : Env) (w : World) : Except Nat (List Nat) :=
  match env.open_errno with
  | some errno => Except.error errno
  | none =>
    match file_lookup uri w with
    | none => Except.error ENOENT
    | some data => Except.ok data

/-- `void handle_get(conn_t *conn)`. -/
def handle_get (conn : conn_t) (env : Env) (w : World) : Outcome :=
  let t : List Event := [Event.call Handler.get]
  let uri := conn.uri
  let r := get_uri_lock uri env.alloc w
  let w := r.2
  let t := t ++ [Event.get_uri_lock uri r.1]
  -- pthread_rwlock_rdlock(uri_lock), with no test of uri_lock
  match r.1 with
  | none => ⟨w, t ++ [Event.rdlock_null], Status.undefined⟩
  | some uri_lock =>
  match pthread_rwlock_rdlock uri_lock w with
  | none => ⟨w, t ++ [Event.wait uri_lock], Status.blocked⟩
  | some w =>
  let t := t ++ [Event.rdlock uri_lock]
  let x : Response_t × Bool × List Event :=
    match open_rdonly uri env w with
    | Except.error errno =>
      let t := t ++ [Event.open_ uri (some errno)]
      if errno = EACCES then (RESPONSE_FORBIDDEN, false, t)
      else if errno = ENOENT then (RESPONSE_NOT_FOUND, false, t)
      else (RESPONSE_INTERNAL_SERVER_ERROR, false, t)
    | Except.ok data =>
      let t := t ++ [Event.open_ uri none]
      if env.fstat = false then
        (RESPONSE_INTERNAL_SERVER_ERROR, false, t ++ [Event.fstat false, Event.close Desc.fd])
      else
        let t := t ++ [Event.fstat true, Event.conn_send_file data env.conn_send_file,
          Event.close Desc.fd]
        match env.conn_send_file with
        | none => (RESPONSE_OK, true, t)
        | some res => (res, true, t)
  let res := x.1
  let response_sent := x.2.1
  let t := x.2.2
  let t := if response_sent = false then conn_send_response res t else t
  let t := audit conn res t
  let w := pthread_rwlock_unlock uri_lock w
  ⟨w, t ++ [Event.unlock uri_lock], Status.returned⟩

/-- `void handle_put(conn_t *conn)`. -/
def handle_put (conn : conn_t) (env : Env) (w : World) : Outcome :=
  let uri := conn.uri
  let t : List Event := [Event.call Handler.put]
  if env.mkstemp = false then
    let res := RESPONSE_INTERNAL_SERVER_ERROR
    let t := conn_send_response res (t ++ [Event.mkstemp false])
    ⟨w, t, Status.returned⟩
  else
  let t := t ++ [Event.mkstemp true, Event.conn_recv_file env.conn_recv_file]
  match env.conn_recv_file with
  | some res =>
    let t := conn_send_response res t
    ⟨w, t ++ [Event.close Desc.temp, Event.unlink_temp], Status.returned⟩
  | none =>
  let temp_data := conn.body
  if env.lseek_end = false then
    let res := RESPONSE_INTERNAL_SERVER_ERROR
    let t := conn_send_response res (t ++ [Event.lseek_end false])
    ⟨w, t ++ [Event.close Desc.temp, Event.unlink_temp], Status.returned⟩
  else
  let file_size := temp_data.length
  let t := t ++ [Event.lseek_end true]
  if env.lseek_set = false then
    let res := RESPONSE_INTERNAL_SERVER_ERROR
    let t := conn_send_response res (t ++ [Event.lseek_set false])
    ⟨w, t ++ [Event.close Desc.temp, Event.unlink_temp], Status.returned⟩
  else
  let t := t ++ [Event.lseek_set true]
  let r := get_uri_lock uri env.alloc w
  let w := r.2
  let t := t ++ [Event.get_uri_lock uri r.1]
  match r.1 with
  | none =>
    let res := RESPONSE_INTERNAL_SERVER_ERROR
    let t := conn_send_response res t
    ⟨w, t ++ [Event.close Desc.temp, Event.unlink_temp], Status.returned⟩
  | some uri_lock =>
  match pthread_rwlock_wrlock uri_lock w with
  | none => ⟨w, t ++ [Event.wait uri_lock], Status.blocked⟩
  | some w =>
  let t := t ++ [Event.wrlock uri_lock]
  let file_existed := access_F_OK uri w
  let t := t ++ [Event.access uri file_existed]
  -- open(uri, O_CREAT | O_WRONLY | O_TRUNC, 0600)
  match env.open_errno with
  | some errno =>
    let res := if errno = EACCES ∨ errno = EISDIR ∨ errno = ENOENT
      then RESPONSE_FORBIDDEN else RESPONSE_INTERNAL_SERVER_ERROR
    let t := conn_send_response res (t ++ [Event.open_ uri (some errno)])
    let w := pthread_rwlock_unlock uri_lock w
    ⟨w, t ++ [Event.unlock uri_lock, Event.close Desc.temp, Event.unlink_temp],
      Status.returned⟩
  | none =>
  let w := file_store uri [] w
  let t := t ++ [Event.open_ uri none]
  match env.pass_fail with
  | some k =>
    let w := file_store uri (temp_data.take (min k file_size)) w
    let res := RESPONSE_INTERNAL_SERVER_ERROR
    let t := conn_send_response res (t ++ [Event.pass_n_bytes false])
    ⟨w, t ++ [Event.close Desc.temp, Event.unlink_temp], Status.returned⟩
  | none =>
  let w := file_store uri (temp_data.take file_size) w
  let t := t ++ [Event.pass_n_bytes true]
  let res := if file_existed then RESPONSE_OK else RESPONSE_CREATED
  let t := conn_send_response res t
  let t := audit conn res t
  let w := pthread_rwlock_unlock uri_lock w
  ⟨w, t ++ [Event.close Desc.fd, Event.unlock uri_lock, Event.close Desc.temp,
    Event.unlink_temp], Status.returned⟩

/-- The trace of `handle_put` up to the lookup of the lock, when the body is staged. -/
def put_staged_trace (uri : List Nat) (lock : Option Nat) : List Event :=
  [Event.call Handler.put, Event.mkstemp true, Event.conn_recv_file none,
    Event.lseek_end true, Event.lseek_set true, Event.get_uri_lock uri lock]

/-- `void handle_connection(int connfd)`: parse, then send the error response of the
parser or dispatch on the request. -/
def handle_connection (conn : conn_t) (env : Env) (w : World) : Outcome :=
  let t : List Event := [Event.conn_parse env.conn_parse]
  match env.conn_parse with
  | some res =>
    let t := conn_send_response res t
    ⟨w, t ++ [Event.conn_delete], Status.returned⟩
  | none =>
    let o :=
      if conn.request = Request_t.REQUEST_PUT then handle_put conn env w
      else if conn.request = Request_t.REQUEST_GET then handle_get conn env w
      else handle_unsupported conn w
    match o.status with
    | Status.returned => ⟨o.world, t ++ o.trace ++ [Event.conn_delete], Status.returned⟩
    | s => ⟨o.world, t ++ o.trace, s⟩

/-! ## Sample inputs -/

/-- An environment in which every call succeeds. -/
def env_ok : Env :=
  { conn_parse := none, mkstemp := true, conn_recv_file := none, lseek_end := true,
    lseek_set := true, alloc := AllocOutcome.ok, open_errno := none, pass_fail := none,
    fstat := true, conn_send_file := none }

/-- The request `PUT /a` with body `hello` and no `Request-Id` header. -/
def conn_put_a : conn_t :=
  { request := Request_t.REQUEST_PUT, uri := bytes "/a", request_id := none,
    body := bytes "hello" }

/-- The request `GET /a` with no `Request-Id` header. -/
def conn_get_a : conn_t :=
  { request := Request_t.REQUEST_GET, uri := bytes "/a", request_id := none, body := [] }

/-- The request `DELETE /a` with no `Request-Id` header. -/
def conn_delete_a : conn_t :=
  { request := Request_t.other (bytes "DELETE"), uri := bytes "/a", request_id := none,
    body := [] }

/-- The parser rejects the request with 400. -/
def env_bad_request : Env := { env_ok with conn_parse := some RESPONSE_BAD_REQUEST }

/-- The copy from the temporary file fails after two bytes. -/
def env_copy_fails : Env := { env_ok with pass_fail := some 2 }

/-- The `open` of the URI path fails with `EACCES`. -/
def env_open_fails : Env := { env_ok with open_errno := some EACCES }

/-- The call to `malloc` in `get_uri_lock` returns `NULL`. -/
def env_malloc_null : Env := { env_ok with alloc := AllocOutcome.malloc_null }

/-! ## C strings: lemmas -/

theorem cstr_nil : cstr [] = [] := rfl

theorem cstr_cons (c : Nat) (s : List Nat) :
    cstr (c :: s) = if c = 0 then [] else c :: cstr s := by
  by_cases h : c = 0 <;> simp [cstr, List.takeWhile, h]

theorem strcmp_eq_zero_iff (a b : List Nat) : strcmp a b = 0 ↔ cstr a = cstr b := by
  induction a generalizing b with
  | nil =>
    cases b with
    | nil => simp [strcmp]
    | cons b bs =>
      by_cases hb : b = 0 <;> simp [strcmp, cstr_cons, cstr_nil, hb]
  | cons a as ih =>
    cases b with
    | nil =>
      by_cases ha : a = 0 <;> simp [strcmp, cstr_cons, cstr_nil, ha]
    | cons b bs =>
      by_cases hab : a = b
      · subst hab
        by_cases ha : a = 0
        · simp [strcmp, cstr_cons, ha]
        · simp [strcmp, cstr_cons, ha, ih]
      · have hne : (a : Int) - (b : Int) ≠ 0 := by omega
        by_cases ha : a = 0
        · by_cases hb : b = 0
          · omega
          · simp [strcmp, cstr_cons, ha, hb, hab, hne]
            omega
        · by_cases hb : b = 0
          · simp [strcmp, cstr_cons, ha, hb, hab, hne]
          · simp [strcmp, cstr_cons, ha, hb, hab, hne]

theorem cstr_idem (s : List Nat) : cstr (cstr s) = cstr s := by
  induction s with
  | nil => rfl
  | cons c s ih =>
    by_cases h : c = 0 <;> simp [cstr_cons, h, ih, cstr_nil]

theorem cstr_append_nul (u rest : List Nat) (hu : ∀ c ∈ u, c ≠ 0) :
    cstr (u ++ 0 :: rest) = u := by
  induction u with
  | nil => simp [cstr_cons]
  | cons c u ih =>
    have hc : c ≠ 0 := hu c (by simp)
    have hu2 : ∀ x ∈ u, x ≠ 0 := fun x hx => hu x (by simp [hx])
    simp [cstr_cons, hc, ih hu2]

theorem cstr_of_no_nul (u : List Nat) (hu : ∀ c ∈ u, c ≠ 0) : cstr u = u := by
  induction u with
  | nil => rfl
  | cons c u ih =>
    have hc : c ≠ 0 := hu c (by simp)
    have hu2 : ∀ x ∈ u, x ≠ 0 := fun x hx => hu x (by simp [hx])
    simp [cstr_cons, hc, ih hu2]

/-! ## `hash_uri`: lemmas -/

theorem hash_loop_cstr (h : Nat) (s : List Nat) : hash_loop h (cstr s) = hash_loop h s := by
  induction s generalizing h with
  | nil => rfl
  | cons c s ih =>
    by_cases hc : c = 0
    · simp [cstr_cons, hc, hash_loop]
    · simp [cstr_cons, hc, hash_loop, ih]

theorem hash_uri_cstr (s : List Nat) : hash_uri (cstr s) = hash_uri s := by
  simp [hash_uri, hash_loop_cstr]

theorem hash_uri_lt (s : List Nat) : hash_uri s < LOCK_TABLE_SIZE := by
  unfold hash_uri
  exact Nat.mod_lt _ (by decide)

theorem hash_uri_congr (a b : List Nat) (h : strcmp a b = 0) : hash_uri a = hash_uri b := by
  rw [← hash_uri_cstr a, ← hash_uri_cstr b, (strcmp_eq_zero_iff a b).1 h]

/-- The wrapped loop and the loop without wraparound agree modulo `2 ^ 32`. -/
theorem hash_loop_modEq (u : List Nat) (hu : ∀ c ∈ u, c ≠ 0 ∧ c < 128) (h k : Nat)
    (hk : h % UINT_MOD = k % UINT_MOD) :
    hash_loop h u % UINT_MOD = u.foldl (fun a c => 31 * a + c) k % UINT_MOD := by
  induction u generalizing h k with
  | nil => simpa [hash_loop] using hk
  | cons c u ih =>
    have hc := hu c (by simp)
    have hu2 : ∀ x ∈ u, x ≠ 0 ∧ x < 128 := fun x hx => hu x (by simp [hx])
    simp only [hash_loop, hc.1, if_false, List.foldl_cons]
    apply ih hu2
    simp only [char_to_uint, hc.2, if_true, Nat.mod_mod]
    have : (h * 31 + c) % UINT_MOD = (h % UINT_MOD * 31 + c) % UINT_MOD := by
      simp [Nat.add_mod, Nat.mul_mod]
    rw [this, hk]
    simp [Nat.add_mod, Nat.mul_mod, Nat.mul_comm]

/-- The wrapped loop, step by step, is the Horner iteration with a reduction at each step. -/
theorem hash_loop_eq_foldl (u : List Nat) (hu : ∀ c ∈ u, c ≠ 0 ∧ c < 128) (h : Nat) :
    hash_loop h u = u.foldl (fun a c => (31 * a + c) % UINT_MOD) h := by
  induction u generalizing h with
  | nil => rfl
  | cons c u ih =>
    have hc := hu c (by simp)
    have hu2 : ∀ x ∈ u, x ≠ 0 ∧ x < 128 := fun x hx => hu x (by simp [hx])
    simp only [hash_loop, hc.1, if_false, List.foldl_cons, char_to_uint, hc.2, if_true]
    rw [ih hu2, Nat.mul_comm]

/-- Horner iteration from zero is the polynomial in 31 with the bytes as coefficients. -/
theorem foldl_horner_eq_sum (u : List Nat) :
    u.foldl (fun a c => 31 * a + c) 0 =
      (Finset.range u.length).sum (fun i => u.getD i 0 * 31 ^ (u.length - 1 - i)) := by
  induction u using List.reverseRecOn with
  | nil => simp
  | append_singleton u c ih =>
    rw [List.foldl_append, List.foldl_cons, List.foldl_nil, ih, List.length_append,
      List.length_singleton, Finset.sum_range_succ, Finset.mul_sum]
    congr 1
    · apply Finset.sum_congr rfl
      intro i hi
      have hi2 : i < u.length := Finset.mem_range.1 hi
      have e1 : (u ++ [c]).getD i 0 = u.getD i 0 := by
        simp [List.getD_eq_getElem?_getD, List.getElem?_append_left hi2]
      have e2 : u.length + 1 - 1 - i = (u.length - 1 - i) + 1 := by omega
      rw [e1, e2, pow_succ]
      ring
    · simp [List.getD_eq_getElem?_getD]

/-! ## The lock registry: lemmas -/

theorem chain_find_congr (u v : List Nat) (h : cstr u = cstr v) (chain : List lock_entry_t) :
    chain_find u chain = chain_find v chain := by
  induction chain with
  | nil => rfl
  | cons e next ih =>
    have e1 : (strcmp e.uri u = 0) = (strcmp e.uri v = 0) := by
      rw [strcmp_eq_zero_iff, strcmp_eq_zero_iff, h]
    simp only [chain_find, e1, ih]

theorem get_uri_lock_found (uri : List Nat) (alloc : AllocOutcome) (w : World) (lock : Nat)
    (h : chain_find uri (w.lock_table.getD (hash_uri uri) []) = some lock) :
    get_uri_lock uri alloc w = (some lock, w) := by
  unfold get_uri_lock
  simp only [h]

theorem get_uri_lock_new (uri : List Nat) (w : World)
    (h : chain_find uri (w.lock_table.getD (hash_uri uri) []) = none) :
    get_uri_lock uri AllocOutcome.ok w = (some w.heap_next,
      { w with
        lock_table := w.lock_table.set (hash_uri uri)
          ({ uri := strdup uri, rwlock := w.heap_next } :: w.lock_table.getD (hash_uri uri) [])
        heap_next := w.heap_next + 1 }) := by
  unfold get_uri_lock
  simp only [h]

theorem get_uri_lock_null (uri : List Nat) (alloc : AllocOutcome) (w : World)
    (h : chain_find uri (w.lock_table.getD (hash_uri uri) []) = none)
    (ha : alloc ≠ AllocOutcome.ok) :
    get_uri_lock uri alloc w = (none, w) := by
  unfold get_uri_lock
  cases alloc <;> simp_all only [ne_eq, not_true_eq_false, not_false_eq_true]

/-- A handle the registry holds for `v` is still the one it holds after any call. -/
theorem get_uri_lock_keeps (uri v : List Nat) (alloc : AllocOutcome) (w : World) (lock : Nat)
    (h : chain_find v (w.lock_table.getD (hash_uri v) []) = some lock) :
    chain_find v ((get_uri_lock uri alloc w).2.lock_table.getD (hash_uri v) []) = some lock := by
  cases hf : chain_find uri (w.lock_table.getD (hash_uri uri) []) with
  | some l => rw [get_uri_lock_found uri alloc w l hf]; exact h
  | none =>
    by_cases ha : alloc = AllocOutcome.ok
    · subst ha
      rw [get_uri_lock_new uri w hf]
      simp only
      by_cases hb : hash_uri uri = hash_uri v
      · by_cases hlen : hash_uri v < w.lock_table.length
        · have hne : ¬ strcmp (strdup uri) v = 0 := by
            intro h0
            have hc : cstr uri = cstr v := by
              have := (strcmp_eq_zero_iff _ _).1 h0
              simpa [strdup, cstr_idem] using this
            rw [chain_find_congr uri v hc, hb, h] at hf
            exact Option.noConfusion hf
          rw [hb, List.getD_eq_getElem?_getD, List.getElem?_set_self hlen]
          simp only [Option.getD_some, chain_find, hne, if_false]
          exact h
        · rw [hb, List.set_eq_of_length_le (by omega)]
          exact h
      · rw [List.getD_eq_getElem?_getD, List.getElem?_set_ne hb, ← List.getD_eq_getElem?_getD]
        exact h
    · rw [get_uri_lock_null uri alloc w hf ha]; exact h

/-- After a call that gets its allocations, the registry holds the returned handle. -/
theorem get_uri_lock_ok (uri : List Nat) (w : World)
    (hw : w.lock_table.length = LOCK_TABLE_SIZE) :
    ∃ lock, (get_uri_lock uri AllocOutcome.ok w).1 = some lock ∧
      chain_find uri ((get_uri_lock uri AllocOutcome.ok w).2.lock_table.getD (hash_uri uri) [])
        = some lock := by
  cases hf : chain_find uri (w.lock_table.getD (hash_uri uri) []) with
  | some l =>
    rw [get_uri_lock_found uri _ w l hf]
    exact ⟨l, rfl, hf⟩
  | none =>
    rw [get_uri_lock_new uri w hf]
    refine ⟨w.heap_next, rfl, ?_⟩
    have hlen : hash_uri uri < w.lock_table.length := by
      rw [hw]; exact hash_uri_lt uri
    have h0 : strcmp (strdup uri) uri = 0 := by
      rw [strcmp_eq_zero_iff]; simp [strdup, cstr_idem]
    simp only
    rw [List.getD_eq_getElem?_getD, List.getElem?_set_self hlen]
    simp only [Option.getD_some, chain_find, h0, if_true]

theorem get_uri_lock_length (uri : List Nat) (alloc : AllocOutcome) (w : World) :
    (get_uri_lock uri alloc w).2.lock_table.length = w.lock_table.length := by
  cases hf : chain_find uri (w.lock_table.getD (hash_uri uri) []) with
  | some l => rw [get_uri_lock_found uri alloc w l hf]
  | none =>
    by_cases ha : alloc = AllocOutcome.ok
    · subst ha
      rw [get_uri_lock_new uri w hf]
      simp
    · rw [get_uri_lock_null uri alloc w hf ha]

/-- One call leaves every chain in place: the old chain is a suffix of the new one. -/
theorem get_uri_lock_suffix (uri : List Nat) (alloc : AllocOutcome) (w : World) (b : Nat) :
    w.lock_table.getD b [] <:+ (get_uri_lock uri alloc w).2.lock_table.getD b [] := by
  cases hf : chain_find uri (w.lock_table.getD (hash_uri uri) []) with
  | some l => rw [get_uri_lock_found uri alloc w l hf]
  | none =>
    by_cases ha : alloc = AllocOutcome.ok
    · subst ha
      rw [get_uri_lock_new uri w hf]
      simp only
      by_cases hb : hash_uri uri = b
      · by_cases hlen : b < w.lock_table.length
        · rw [hb, List.getD_eq_getElem?_getD (w.lock_table.set _ _), List.getElem?_set_self hlen]
          exact List.suffix_cons _ _
        · rw [List.set_eq_of_length_le (by omega)]
      · rw [List.getD_eq_getElem?_getD (w.lock_table.set _ _), List.getElem?_set_ne hb,
          ← List.getD_eq_getElem?_getD]
    · rw [get_uri_lock_null uri alloc w hf ha]

theorem run_lookups_suffix (calls : List (List Nat × AllocOutcome)) (w : World) (b : Nat) :
    w.lock_table.getD b [] <:+ (run_lookups calls w).2.lock_table.getD b [] := by
  induction calls generalizing w with
  | nil => exact List.suffix_refl _
  | cons c rest ih =>
    obtain ⟨uri, alloc⟩ := c
    simp only [run_lookups]
    exact (get_uri_lock_suffix uri alloc w b).trans (ih _)

/-- Once the registry holds a handle for `v`, every later call on a string equal to `v`
returns it. -/
theorem run_lookups_keeps (calls : List (List Nat × AllocOutcome)) (w : World) (v : List Nat)
    (lock : Nat) (h : chain_find v (w.lock_table.getD (hash_uri v) []) = some lock)
    (j : Nat) (uj : List Nat) (hj : (calls.map Prod.fst)[j]? = some uj)
    (hv : cstr uj = cstr v) :
    (run_lookups calls w).1[j]? = some (some lock) := by
  induction calls generalizing w j with
  | nil => simp at hj
  | cons c rest ih =>
    obtain ⟨uri, alloc⟩ := c
    simp only [run_lookups]
    cases j with
    | zero =>
      simp only [List.map_cons, List.getElem?_cons_zero, Option.some.injEq] at hj
      subst hj
      have hb : hash_uri uri = hash_uri v := by
        rw [← hash_uri_cstr uri, ← hash_uri_cstr v, hv]
      have hf : chain_find uri (w.lock_table.getD (hash_uri uri) []) = some lock := by
        rw [chain_find_congr uri v hv, hb]; exact h
      simp [get_uri_lock_found uri alloc w lock hf]
    | succ j =>
      simp only [List.map_cons, List.getElem?_cons_succ] at hj
      simp only [List.getElem?_cons_succ]
      exact ih _ (get_uri_lock_keeps uri v alloc w lock h) j hj

theorem run_lookups_same_aux (calls : List (List Nat × AllocOutcome)) (w : World)
    (hw : w.lock_table.length = LOCK_TABLE_SIZE)
    (hok : ∀ c ∈ calls, c.2 = AllocOutcome.ok)
    (i j : Nat) (hij : i ≤ j) (ui uj : List Nat)
    (hi : (calls.map Prod.fst)[i]? = some ui) (hj : (calls.map Prod.fst)[j]? = some uj)
    (he : cstr ui = cstr uj) :
    ∃ lock, (run_lookups calls w).1[i]? = some (some lock) ∧
      (run_lookups calls w).1[j]? = some (some lock) := by
  induction calls generalizing w i j with
  | nil => simp at hi
  | cons c rest ih =>
    obtain ⟨uri, alloc⟩ := c
    have halloc : alloc = AllocOutcome.ok := hok (uri, alloc) (by simp)
    subst halloc
    have hrest : ∀ c ∈ rest, c.2 = AllocOutcome.ok := fun c hc => hok c (by simp [hc])
    simp only [run_lookups]
    cases i with
    | zero =>
      simp only [List.map_cons, List.getElem?_cons_zero, Option.some.injEq] at hi
      subst hi
      obtain ⟨lock, h1, h2⟩ := get_uri_lock_ok uri w hw
      refine ⟨lock, by simp [h1], ?_⟩
      cases j with
      | zero => simp [h1]
      | succ j =>
        simp only [List.map_cons, List.getElem?_cons_succ] at hj
        simp only [List.getElem?_cons_succ]
        exact run_lookups_keeps rest _ uri lock h2 j uj hj he.symm
    | succ i =>
      cases j with
      | zero => omega
      | succ j =>
        simp only [List.map_cons, List.getElem?_cons_succ] at hi hj
        simp only [List.getElem?_cons_succ]
        exact ih _ (by rw [get_uri_lock_length]; exact hw) hrest i j (by omega) hi hj

/-! ## `audit`: lemmas -/

theorem audit_eq (conn : conn_t) (res : Response_t) (t : List Event) :
    audit conn res t = t ++ [Event.stderr (expected_audit conn res.code)] := by
  have e1 : bytes "%s,%s,%d,%s\n" = [37, 115, 44, 37, 115, 44, 37, 100, 44, 37, 115, 10] := by
    decide
  have e2 : bytes "%s,%s,%d,0\n" = [37, 115, 44, 37, 115, 44, 37, 100, 44, 48, 10] := by
    decide
  have e3 : bytes "," = [44] := by decide
  have e4 : bytes "\n" = [10] := by decide
  have e5 : bytes "0" = [48] := by decide
  have e6 : cstr [48] = [48] := by decide
  obtain ⟨req, uri, rid, body⟩ := conn
  cases rid with
  | none =>
    simp [audit, expected_audit, audit_record, fprintf, response_get_code, e2, e3, e4, e5]
  | some r =>
    simp [audit, expected_audit, audit_record, fprintf, response_get_code, e1, e3, e4]

/-! ## The paths of the handlers -/

/-- Every execution of `handle_put` follows one of nine paths. -/
theorem handle_put_cases (conn : conn_t) (env : Env) (w : World) :
    (env.mkstemp = false ∧
      handle_put conn env w = ⟨w, [Event.call Handler.put, Event.mkstemp false,
        Event.conn_send_response RESPONSE_INTERNAL_SERVER_ERROR], Status.returned⟩) ∨
    (∃ res, env.conn_recv_file = some res ∧
      handle_put conn env w = ⟨w, [Event.call Handler.put, Event.mkstemp true,
        Event.conn_recv_file (some res), Event.conn_send_response res,
        Event.close Desc.temp, Event.unlink_temp], Status.returned⟩) ∨
    (env.lseek_end = false ∧
      handle_put conn env w = ⟨w, [Event.call Handler.put, Event.mkstemp true,
        Event.conn_recv_file none, Event.lseek_end false,
        Event.conn_send_response RESPONSE_INTERNAL_SERVER_ERROR,
        Event.close Desc.temp, Event.unlink_temp], Status.returned⟩) ∨
    (env.lseek_set = false ∧
      handle_put conn env w = ⟨w, [Event.call Handler.put, Event.mkstemp true,
        Event.conn_recv_file none, Event.lseek_end true, Event.lseek_set false,
        Event.conn_send_response RESPONSE_INTERNAL_SERVER_ERROR,
        Event.close Desc.temp, Event.unlink_temp], Status.returned⟩) ∨
    ((get_uri_lock conn.uri env.alloc w).1 = none ∧
      handle_put conn env w = ⟨(get_uri_lock conn.uri env.alloc w).2,
        put_staged_trace conn.uri none ++
          [Event.conn_send_response RESPONSE_INTERNAL_SERVER_ERROR,
            Event.close Desc.temp, Event.unlink_temp], Status.returned⟩) ∨
    (∃ lock, (get_uri_lock conn.uri env.alloc w).1 = some lock ∧
      pthread_rwlock_wrlock lock (get_uri_lock conn.uri env.alloc w).2 = none ∧
      handle_put conn env w = ⟨(get_uri_lock conn.uri env.alloc w).2,
        put_staged_trace conn.uri (some lock) ++ [Event.wait lock], Status.blocked⟩) ∨
    (∃ lock w1 errno, (get_uri_lock conn.uri env.alloc w).1 = some lock ∧
      pthread_rwlock_wrlock lock (get_uri_lock conn.uri env.alloc w).2 = some w1 ∧
      env.open_errno = some errno ∧
      handle_put conn env w = ⟨pthread_rwlock_unlock lock w1,
        put_staged_trace conn.uri (some lock) ++
          [Event.wrlock lock, Event.access conn.uri (access_F_OK conn.uri w1),
            Event.open_ conn.uri (some errno),
            Event.conn_send_response
              (if errno = EACCES ∨ errno = EISDIR ∨ errno = ENOENT
                then RESPONSE_FORBIDDEN else RESPONSE_INTERNAL_SERVER_ERROR),
            Event.unlock lock, Event.close Desc.temp, Event.unlink_temp],
        Status.returned⟩) ∨
    (∃ lock w1 k, (get_uri_lock conn.uri env.alloc w).1 = some lock ∧
      pthread_rwlock_wrlock lock (get_uri_lock conn.uri env.alloc w).2 = some w1 ∧
      env.pass_fail = some k ∧
      handle_put conn env w =
        ⟨file_store conn.uri (conn.body.take (min k conn.body.length))
            (file_store conn.uri [] w1),
          put_staged_trace conn.uri (some lock) ++
            [Event.wrlock lock, Event.access conn.uri (access_F_OK conn.uri w1),
              Event.open_ conn.uri none, Event.pass_n_bytes false,
              Event.conn_send_response RESPONSE_INTERNAL_SERVER_ERROR,
              Event.close Desc.temp, Event.unlink_temp],
          Status.returned⟩) ∨
    (∃ lock w1, (get_uri_lock conn.uri env.alloc w).1 = some lock ∧
      pthread_rwlock_wrlock lock (get_uri_lock conn.uri env.alloc w).2 = some w1 ∧
      handle_put conn env w =
        ⟨pthread_rwlock_unlock lock
            (file_store conn.uri (conn.body.take conn.body.length)
              (file_store conn.uri [] w1)),
          put_staged_trace conn.uri (some lock) ++
            [Event.wrlock lock, Event.access conn.uri (access_F_OK conn.uri w1),
              Event.open_ conn.uri none, Event.pass_n_bytes true,
              Event.conn_send_response
                (if access_F_OK conn.uri w1 then RESPONSE_OK else RESPONSE_CREATED),
              Event.stderr (expected_audit conn
                (if access_F_OK conn.uri w1 then RESPONSE_OK else RESPONSE_CREATED).code),
              Event.close Desc.fd, Event.unlock lock, Event.close Desc.temp,
              Event.unlink_temp],
          Status.returned⟩) := by
  unfold handle_put
  cases h1 : env.mkstemp with
  | false => left; simp [conn_send_response]
  | true =>
    right
    cases h2 : env.conn_recv_file with
    | some res => left; exact ⟨res, rfl, by simp [conn_send_response]⟩
    | none =>
      right
      cases h3 : env.lseek_end with
      | false => left; simp [conn_send_response]
      | true =>
        right
        cases h4 : env.lseek_set with
        | false => left; simp [conn_send_response]
        | true =>
          right
          cases h5 : (get_uri_lock conn.uri env.alloc w).1 with
          | none => left; simp [h5, conn_send_response, put_staged_trace]
          | some lock =>
            right
            cases h6 : pthread_rwlock_wrlock lock (get_uri_lock conn.uri env.alloc w).2 with
            | none => left; exact ⟨lock, rfl, h6, by simp [h5, h6, put_staged_trace]⟩
            | some w1 =>
              right
              cases h7 : env.open_errno with
              | some errno =>
                left
                exact ⟨lock, w1, errno, rfl, h6, rfl,
                  by simp [h5, h6, h7, conn_send_response, put_staged_trace]⟩
              | none =>
                right
                cases h8 : env.pass_fail with
                | some k =>
                  left
                  exact ⟨lock, w1, k, rfl, h6, rfl,
                    by simp [h5, h6, h7, h8, conn_send_response, put_staged_trace]⟩
                | none =>
                  right
                  exact ⟨lock, w1, rfl, h6,
                    by simp [h5, h6, h7, h8, conn_send_response, put_staged_trace, audit_eq]⟩

/-- Every execution of `handle_get` follows one of five paths. -/
theorem handle_get_cases (conn : conn_t) (env : Env) (w : World) :
    ((get_uri_lock conn.uri env.alloc w).1 = none ∧
      handle_get conn env w = ⟨(get_uri_lock conn.uri env.alloc w).2,
        [Event.call Handler.get, Event.get_uri_lock conn.uri none, Event.rdlock_null],
        Status.undefined⟩) ∨
    (∃ lock, (get_uri_lock conn.uri env.alloc w).1 = some lock ∧
      pthread_rwlock_rdlock lock (get_uri_lock conn.uri env.alloc w).2 = none ∧
      handle_get conn env w = ⟨(get_uri_lock conn.uri env.alloc w).2,
        [Event.call Handler.get, Event.get_uri_lock conn.uri (some lock), Event.wait lock],
        Status.blocked⟩) ∨
    (∃ lock w1 errno, (get_uri_lock conn.uri env.alloc w).1 = some lock ∧
      pthread_rwlock_rdlock lock (get_uri_lock conn.uri env.alloc w).2 = some w1 ∧
      open_rdonly conn.uri env w1 = Except.error errno ∧
      handle_get conn env w = ⟨pthread_rwlock_unlock lock w1,
        [Event.call Handler.get, Event.get_uri_lock conn.uri (some lock), Event.rdlock lock,
          Event.open_ conn.uri (some errno),
          Event.conn_send_response
            (if errno = EACCES then RESPONSE_FORBIDDEN
              else if errno = ENOENT then RESPONSE_NOT_FOUND
              else RESPONSE_INTERNAL_SERVER_ERROR),
          Event.stderr (expected_audit conn
            (if errno = EACCES then RESPONSE_FORBIDDEN
              else if errno = ENOENT then RESPONSE_NOT_FOUND
              else RESPONSE_INTERNAL_SERVER_ERROR).code),
          Event.unlock lock],
        Status.returned⟩) ∨
    (∃ lock w1 data, (get_uri_lock conn.uri env.alloc w).1 = some lock ∧
      pthread_rwlock_rdlock lock (get_uri_lock conn.uri env.alloc w).2 = some w1 ∧
      open_rdonly conn.uri env w1 = Except.ok data ∧ env.fstat = false ∧
      handle_get conn env w = ⟨pthread_rwlock_unlock lock w1,
        [Event.call Handler.get, Event.get_uri_lock conn.uri (some lock), Event.rdlock lock,
          Event.open_ conn.uri none, Event.fstat false, Event.close Desc.fd,
          Event.conn_send_response RESPONSE_INTERNAL_SERVER_ERROR,
          Event.stderr (expected_audit conn RESPONSE_INTERNAL_SERVER_ERROR.code),
          Event.unlock lock],
        Status.returned⟩) ∨
    (∃ lock w1 data, (get_uri_lock conn.uri env.alloc w).1 = some lock ∧
      pthread_rwlock_rdlock lock (get_uri_lock conn.uri env.alloc w).2 = some w1 ∧
      open_rdonly conn.uri env w1 = Except.ok data ∧ env.fstat = true ∧
      handle_get conn env w = ⟨pthread_rwlock_unlock lock w1,
        [Event.call Handler.get, Event.get_uri_lock conn.uri (some lock), Event.rdlock lock,
          Event.open_ conn.uri none, Event.fstat true,
          Event.conn_send_file data env.conn_send_file, Event.close Desc.fd,
          Event.stderr (expected_audit conn (env.conn_send_file.getD RESPONSE_OK).code),
          Event.unlock lock],
        Status.returned⟩) := by
  unfold handle_get
  cases h1 : (get_uri_lock conn.uri env.alloc w).1 with
  | none => left; simp [h1]
  | some lock =>
    right
    cases h2 : pthread_rwlock_rdlock lock (get_uri_lock conn.uri env.alloc w).2 with
    | none => left; exact ⟨lock, rfl, h2, by simp [h1, h2]⟩
    | some w1 =>
      right
      cases h3 : open_rdonly conn.uri env w1 with
      | error errno =>
        left
        refine ⟨lock, w1, errno, rfl, h2, h3, ?_⟩
        have ne : ¬ ENOENT = EACCES := by decide
        by_cases e1 : errno = EACCES
        · simp [h1, h2, h3, e1, conn_send_response, audit_eq]
        · by_cases e2 : errno = ENOENT
          · simp [h1, h2, h3, e1, e2, ne, conn_send_response, audit_eq]
          · simp [h1, h2, h3, e1, e2, ne, conn_send_response, audit_eq]
      | ok data =>
        right
        cases h4 : env.fstat with
        | false =>
          left
          exact ⟨lock, w1, data, rfl, h2, h3, rfl,
            by simp [h1, h2, h3, h4, conn_send_response, audit_eq]⟩
        | true =>
          right
          refine ⟨lock, w1, data, rfl, h2, h3, rfl, ?_⟩
          cases h5 : env.conn_send_file with
          | none => simp [h1, h2, h3, h4, h5, conn_send_response, audit_eq]
          | some res => simp [h1, h2, h3, h4, h5, conn_send_response, audit_eq]

/-! ## Claims on the lock registry -/

/-- C10: for a string `u` of non-NUL bytes below 128, followed by its terminating NUL (or
by the end of the buffer), `hash_uri` is the polynomial in 31 with the bytes of `u` as
coefficients, taken modulo 1024; it is the iteration `h = 31 * h + c` from `h = 0` with
wraparound at `2 ^ 32`, reduced modulo `LOCK_TABLE_SIZE`. For every buffer the result is
below 1024, and buffers holding equal strings hash to the same bucket. -/
theorem hash_uri_polynomial (u rest : List Nat) (hu : ∀ c ∈ u, c ≠ 0 ∧ c < 128) :
    hash_uri (u ++ 0 :: rest) =
        (Finset.range u.length).sum (fun i => u.getD i 0 * 31 ^ (u.length - 1 - i)) % 1024 ∧
      hash_uri u = hash_uri (u ++ 0 :: rest) ∧
      hash_uri (u ++ 0 :: rest) =
        u.foldl (fun h c => (31 * h + c) % 2 ^ 32) 0 % LOCK_TABLE_SIZE ∧
      (∀ s : List Nat, hash_uri s < 1024 ∧
        ∀ files, hash_uri s < (World.init files).lock_table.length) ∧
      (∀ s s2 : List Nat, strcmp s s2 = 0 → hash_uri s = hash_uri s2) := by
  have hu0 : ∀ c ∈ u, c ≠ 0 := fun c hc => (hu c hc).1
  have e0 : hash_uri (u ++ 0 :: rest) = hash_uri u := by
    rw [← hash_uri_cstr (u ++ 0 :: rest), cstr_append_nul u rest hu0]
  refine ⟨?_, e0.symm, ?_, ?_, hash_uri_congr⟩
  · rw [e0, ← foldl_horner_eq_sum]
    unfold hash_uri
    have h1 := hash_loop_modEq u hu 0 0 rfl
    have hd : LOCK_TABLE_SIZE ∣ UINT_MOD := by decide
    rw [← Nat.mod_mod_of_dvd (hash_loop 0 u) hd, h1, Nat.mod_mod_of_dvd _ hd]
    rfl
  · rw [e0]
    unfold hash_uri
    rw [hash_loop_eq_foldl u hu 0]
    rfl
  · intro s
    have h := hash_uri_lt s
    refine ⟨h, ?_⟩
    intro files
    simp only [World.init, List.length_replicate]
    exact h

/-- C10, at the URI `/a` stored in a buffer with bytes after the NUL. -/
theorem hash_uri_polynomial_witness :
    (∀ c ∈ [47, 97], c ≠ 0 ∧ c < 128) ∧
      hash_uri ([47, 97] ++ 0 :: [120, 121]) = (47 * 31 + 97) % 1024 ∧
      hash_uri ([47, 97] ++ 0 :: [120, 121]) = 530 := by
  have hu : ∀ c ∈ [47, 97], c ≠ 0 ∧ c < 128 := by decide
  have h := (hash_uri_polynomial [47, 97] [120, 121] hu).1
  refine ⟨hu, ?_, ?_⟩
  · rw [h]; decide
  · rw [h]; decide

/-- C1: from any state whose table has its 1024 buckets, in every finite sequence of
`get_uri_lock` calls whose allocations and lock initialisations succeed, any two calls
whose arguments are string-equal to `u` return the same non-NULL lock, whatever is looked
up in between; and no call removes or replaces an entry: each chain before the calls is
a suffix of the chain after them. -/
theorem get_uri_lock_same_handle (calls : List (List Nat × AllocOutcome)) (w : World)
    (hw : w.lock_table.length = LOCK_TABLE_SIZE)
    (hok : ∀ c ∈ calls, c.2 = AllocOutcome.ok) (u : List Nat) :
    (∀ (i j : Nat) (ui uj : List Nat),
        (calls.map Prod.fst)[i]? = some ui → (calls.map Prod.fst)[j]? = some uj →
        strcmp ui u = 0 → strcmp uj u = 0 →
        ∃ lock, (run_lookups calls w).1[i]? = some (some lock) ∧
          (run_lookups calls w).1[j]? = some (some lock)) ∧
      (∀ b : Nat, w.lock_table.getD b [] <:+ (run_lookups calls w).2.lock_table.getD b []) ∧
      (∀ (uri : List Nat) (alloc : AllocOutcome) (w0 : World) (b : Nat),
        w0.lock_table.getD b [] <:+ (get_uri_lock uri alloc w0).2.lock_table.getD b []) := by
  refine ⟨?_, run_lookups_suffix calls w, get_uri_lock_suffix⟩
  intro i j ui uj hi hj h1 h2
  have e : cstr ui = cstr uj := by
    rw [(strcmp_eq_zero_iff ui u).1 h1, (strcmp_eq_zero_iff uj u).1 h2]
  rcases Nat.le_total i j with hij | hij
  · exact run_lookups_same_aux calls w hw hok i j hij ui uj hi hj e
  · obtain ⟨lock, a, b⟩ := run_lookups_same_aux calls w hw hok j i hij uj ui hj hi e.symm
    exact ⟨lock, b, a⟩

/-- C1, at start-up: `/a` is looked up, then `/b`, then `/a` again from a buffer with bytes
after the NUL; the first and the third call return the same lock. -/
theorem get_uri_lock_same_handle_witness :
    (World.init []).lock_table.length = LOCK_TABLE_SIZE ∧
      (∀ c ∈ [(bytes "/a", AllocOutcome.ok), (bytes "/b", AllocOutcome.ok),
        ([47, 97, 0, 120], AllocOutcome.ok)], c.2 = AllocOutcome.ok) ∧
      ∃ lock,
        (run_lookups [(bytes "/a", AllocOutcome.ok), (bytes "/b", AllocOutcome.ok),
          ([47, 97, 0, 120], AllocOutcome.ok)] (World.init [])).1[0]? = some (some lock) ∧
        (run_lookups [(bytes "/a", AllocOutcome.ok), (bytes "/b", AllocOutcome.ok),
          ([47, 97, 0, 120], AllocOutcome.ok)] (World.init [])).1[2]? = some (some lock) := by
  have hw : (World.init []).lock_table.length = LOCK_TABLE_SIZE := by
    simp [World.init]
  have hok : ∀ c ∈ [(bytes "/a", AllocOutcome.ok), (bytes "/b", AllocOutcome.ok),
      ([47, 97, 0, 120], AllocOutcome.ok)], c.2 = AllocOutcome.ok := by
    intro c hc
    simp only [List.mem_cons, List.mem_singleton, List.not_mem_nil, or_false] at hc
    rcases hc with h | h | h <;> rw [h]
  exact ⟨hw, hok,
    (get_uri_lock_same_handle _ (World.init []) hw hok (bytes "/a")).1 0 2
      (bytes "/a") [47, 97, 0, 120] rfl rfl (by decide) (by decide)⟩

/-! ## Claims on the audit line -/

theorem digitChar_ne_comma (d : Nat) (hd : d < 10) : (Nat.digitChar d).toNat ≠ 44 := by
  interval_cases d <;> decide

theorem toDigitsCore_no_comma (fuel n : Nat) (acc : List Char)
    (hacc : ∀ c ∈ acc, c.toNat ≠ 44) :
    ∀ c ∈ Nat.toDigitsCore 10 fuel n acc, c.toNat ≠ 44 := by
  induction fuel generalizing n acc with
  | zero => simpa [Nat.toDigitsCore] using hacc
  | succ fuel ih =>
    have hd : ∀ c ∈ Nat.digitChar (n % 10) :: acc, c.toNat ≠ 44 := by
      intro c hc
      rcases List.mem_cons.1 hc with h | h
      · rw [h]; exact digitChar_ne_comma _ (Nat.mod_lt _ (by decide))
      · exact hacc c h
    unfold Nat.toDigitsCore
    by_cases h0 : n / 10 = 0
    · simpa [h0] using hd
    · simp only [h0, if_false]
      exact ih (n / 10) _ hd

theorem fmt_d_no_comma (n : Nat) : 44 ∉ fmt_d n := by
  intro h
  simp only [fmt_d, List.mem_map] at h
  obtain ⟨c, hc, e⟩ := h
  exact toDigitsCore_no_comma _ _ [] (by simp) c hc e

/-- C6 as stated fails: with the valid header value `1,2` the audit line has five
comma-separated fields, and its last field is not the header value. -/
theorem audit_fields_counterexample :
    stderr_lines (audit ⟨Request_t.REQUEST_GET, bytes "/a", some (bytes "1,2"), []⟩
        RESPONSE_OK []) = [bytes "GET,/a,200,1,2\n"] ∧
      csv_fields (bytes "GET,/a,200,1,2\n") =
        [bytes "GET", bytes "/a", bytes "200", bytes "1", bytes "2"] ∧
      (csv_fields (bytes "GET,/a,200,1,2\n")).length ≠ 4 ∧
      (csv_fields (bytes "GET,/a,200,1,2\n")).getLast? ≠ some (bytes "1,2") := by
  decide

/-- C6, amended: for every method string, URI, status and optional `Request-Id` value,
`audit` appends exactly one line, `m,u,c,r` and a newline when the header is present and
`m,u,c,0` and a newline when it is absent, the status in decimal and the strings up to
their NUL. When the method, the URI and the header value contain no comma, the line has
exactly the four fields method, URI, status and header value (or `0`). -/
theorem audit_line_format (conn : conn_t) (res : Response_t) (t : List Event) :
    audit conn res t = t ++ [Event.stderr
        (cstr (request_get_str conn.request) ++ bytes "," ++ cstr conn.uri ++ bytes "," ++
          fmt_d (response_get_code res) ++ bytes "," ++
          (match conn.request_id with
            | some r => cstr r
            | none => bytes "0") ++ bytes "\n")] ∧
      (44 ∉ cstr (request_get_str conn.request) → 44 ∉ cstr conn.uri →
        (∀ r, conn.request_id = some r → 44 ∉ cstr r) →
        csv_fields
            (cstr (request_get_str conn.request) ++ bytes "," ++ cstr conn.uri ++ bytes "," ++
              fmt_d (response_get_code res) ++ bytes "," ++
              (match conn.request_id with
                | some r => cstr r
                | none => bytes "0") ++ bytes "\n") =
          [cstr (request_get_str conn.request), cstr conn.uri, fmt_d (response_get_code res),
            match conn.request_id with
            | some r => cstr r
            | none => bytes "0"]) := by
  have e3 : bytes "," = [44] := by decide
  have e4 : bytes "\n" = [10] := by decide
  have e5 : bytes "0" = [48] := by decide
  constructor
  · rw [audit_eq]
    obtain ⟨req, uri, rid, body⟩ := conn
    cases rid <;> rfl
  · intro hm hu hr
    have hrid : 44 ∉ (match conn.request_id with
        | some r => cstr r
        | none => bytes "0") := by
      cases h : conn.request_id with
      | none => rw [e5]; decide
      | some r => exact hr r h
    generalize (match conn.request_id with
        | some r => cstr r
        | none => bytes "0") = rid at hrid ⊢
    have hsplit := List.splitOn_intercalate
      [cstr (request_get_str conn.request), cstr conn.uri, fmt_d (response_get_code res), rid]
      44 (by
        intro l hl
        simp only [List.mem_cons, List.mem_singleton, List.not_mem_nil, or_false] at hl
        rcases hl with h | h | h | h <;> rw [h]
        · exact hm
        · exact hu
        · exact fmt_d_no_comma _
        · exact hrid) (by simp)
    have hX : [44].intercalate
        [cstr (request_get_str conn.request), cstr conn.uri, fmt_d (response_get_code res), rid] =
        cstr (request_get_str conn.request) ++ [44] ++ cstr conn.uri ++ [44] ++
          fmt_d (response_get_code res) ++ [44] ++ rid := by
      simp [List.intercalate]
    rw [hX] at hsplit
    unfold csv_fields
    rw [e3, e4, List.dropLast_concat]
    exact hsplit

/-- C6, amended, at the request `PUT /a` with `Request-Id: 42` answered 201. -/
theorem audit_line_format_witness :
    audit ⟨Request_t.REQUEST_PUT, bytes "/a", some (bytes "42"), []⟩ RESPONSE_CREATED [] =
        [Event.stderr (bytes "PUT,/a,201,42\n")] ∧
      csv_fields (bytes "PUT,/a,201,42\n") = [bytes "PUT", bytes "/a", bytes "201", bytes "42"] := by
  have h := audit_line_format ⟨Request_t.REQUEST_PUT, bytes "/a", some (bytes "42"), []⟩
    RESPONSE_CREATED []
  exact ⟨h.1, h.2 (by decide) (by decide) (by
    intro r hr
    simp only [Option.some.injEq] at hr
    rw [← hr]; decide)⟩

set_option maxRecDepth 100000

/-! ## Claims on the handlers -/

/-- C4: in `handle_get`, when `open` of the URI path fails the response is 403 for
`EACCES`, 404 for `ENOENT` and 500 for every other `errno`, and 500 when `fstat` fails;
that response is passed to `conn_send_response` exactly once and the one audit line
carries exactly that status. When `conn_send_file` succeeds the handler sends nothing
more and the one audit line carries 200. -/
theorem handle_get_status (conn : conn_t) (env : Env) (w : World) :
    (∀ errno, Event.open_ conn.uri (some errno) ∈ (handle_get conn env w).trace →
      (errno = EACCES →
        sent_responses (handle_get conn env w).trace = [RESPONSE_FORBIDDEN] ∧
        stderr_lines (handle_get conn env w).trace = [expected_audit conn 403]) ∧
      (errno = ENOENT →
        sent_responses (handle_get conn env w).trace = [RESPONSE_NOT_FOUND] ∧
        stderr_lines (handle_get conn env w).trace = [expected_audit conn 404]) ∧
      (errno ≠ EACCES → errno ≠ ENOENT →
        sent_responses (handle_get conn env w).trace = [RESPONSE_INTERNAL_SERVER_ERROR] ∧
        stderr_lines (handle_get conn env w).trace = [expected_audit conn 500])) ∧
    (Event.fstat false ∈ (handle_get conn env w).trace →
      sent_responses (handle_get conn env w).trace = [RESPONSE_INTERNAL_SERVER_ERROR] ∧
      stderr_lines (handle_get conn env w).trace = [expected_audit conn 500]) ∧
    (∀ data, Event.conn_send_file data none ∈ (handle_get conn env w).trace →
      sent_responses (handle_get conn env w).trace = [] ∧
      stderr_lines (handle_get conn env w).trace = [expected_audit conn 200]) := by
  have ne : ¬ ENOENT = EACCES := by decide
  rcases handle_get_cases conn env w with ⟨_, h⟩ | ⟨lock, _, _, h⟩ |
    ⟨lock, w1, e, _, _, _, h⟩ | ⟨lock, w1, d, _, _, _, _, h⟩ | ⟨lock, w1, d, _, _, _, _, h⟩
  · rw [h]; simp
  · rw [h]; simp
  · rw [h]
    refine ⟨?_, by simp, by simp⟩
    intro errno hmem
    have he : errno = e := by simpa using hmem
    subst he
    refine ⟨?_, ?_, ?_⟩
    · intro h1; subst h1
      simp [sent_responses, stderr_lines, RESPONSE_FORBIDDEN]
    · intro h1; subst h1
      simp [sent_responses, stderr_lines, RESPONSE_NOT_FOUND, ne]
    · intro h1 h2
      simp [sent_responses, stderr_lines, RESPONSE_INTERNAL_SERVER_ERROR, h1, h2]
  · rw [h]
    simp [sent_responses, stderr_lines, RESPONSE_INTERNAL_SERVER_ERROR]
  · rw [h]
    refine ⟨by simp, by simp, ?_⟩
    intro data hmem
    have he : env.conn_send_file = none := by
      simp at hmem
      exact hmem.2.symm
    simp [sent_responses, stderr_lines, he, RESPONSE_OK]

/-- C4, at a GET of a missing file: one 404 is sent and one line with 404 is written. -/
theorem handle_get_status_witness :
    Event.open_ (bytes "/a") (some ENOENT) ∈
        (handle_get ⟨Request_t.REQUEST_GET, bytes "/a", none, []⟩
          ⟨none, true, none, true, true, AllocOutcome.ok, none, none, true, none⟩
          (World.init [])).trace ∧
      sent_responses (handle_get ⟨Request_t.REQUEST_GET, bytes "/a", none, []⟩
          ⟨none, true, none, true, true, AllocOutcome.ok, none, none, true, none⟩
          (World.init [])).trace = [RESPONSE_NOT_FOUND] ∧
      stderr_lines (handle_get ⟨Request_t.REQUEST_GET, bytes "/a", none, []⟩
          ⟨none, true, none, true, true, AllocOutcome.ok, none, none, true, none⟩
          (World.init [])).trace = [bytes "GET,/a,404,0\n"] := by
  have hmem : Event.open_ (bytes "/a") (some ENOENT) ∈
      (handle_get ⟨Request_t.REQUEST_GET, bytes "/a", none, []⟩
        ⟨none, true, none, true, true, AllocOutcome.ok, none, none, true, none⟩
        (World.init [])).trace := by decide
  have h := ((handle_get_status ⟨Request_t.REQUEST_GET, bytes "/a", none, []⟩
    ⟨none, true, none, true, true, AllocOutcome.ok, none, none, true, none⟩
    (World.init [])).1 ENOENT hmem).2.1 rfl
  exact ⟨hmem, h.1, h.2⟩

theorem handler_calls_put (conn : conn_t) (env : Env) (w : World) :
    handler_calls (handle_put conn env w).trace = [Handler.put] := by
  rcases handle_put_cases conn env w with ⟨_, h⟩ | ⟨res, _, h⟩ | ⟨_, h⟩ | ⟨_, h⟩ | ⟨_, h⟩ |
    ⟨lock, _, _, h⟩ | ⟨lock, w1, e, _, _, _, h⟩ | ⟨lock, w1, k, _, _, _, h⟩ |
    ⟨lock, w1, _, _, h⟩ <;>
  · rw [h]; simp [handler_calls, put_staged_trace]

theorem handler_calls_get (conn : conn_t) (env : Env) (w : World) :
    handler_calls (handle_get conn env w).trace = [Handler.get] := by
  rcases handle_get_cases conn env w with ⟨_, h⟩ | ⟨lock, _, _, h⟩ |
    ⟨lock, w1, e, _, _, _, h⟩ | ⟨lock, w1, d, _, _, _, _, h⟩ | ⟨lock, w1, d, _, _, _, _, h⟩ <;>
  · rw [h]; simp [handler_calls]

theorem handle_unsupported_eq (conn : conn_t) (w : World) :
    handle_unsupported conn w = ⟨w, [Event.call Handler.unsupported,
      Event.conn_send_response RESPONSE_NOT_IMPLEMENTED,
      Event.stderr (expected_audit conn 501)], Status.returned⟩ := by
  simp [handle_unsupported, conn_send_response, audit_eq, RESPONSE_NOT_IMPLEMENTED]

/-- The handler `handle_connection` dispatches to, after a successful parse. -/
theorem handle_connection_parsed (conn : conn_t) (env : Env) (w : World)
    (hp : env.conn_parse = none) (o : Outcome)
    (ho : o = if conn.request = Request_t.REQUEST_PUT then handle_put conn env w
      else if conn.request = Request_t.REQUEST_GET then handle_get conn env w
      else handle_unsupported conn w) :
    (handle_connection conn env w).status = o.status ∧
      (handle_connection conn env w).world = o.world ∧
      ((handle_connection conn env w).trace = Event.conn_parse none :: o.trace ∨
        (handle_connection conn env w).trace =
          Event.conn_parse none :: o.trace ++ [Event.conn_delete]) := by
  unfold handle_connection
  simp only [hp, ← ho]
  cases hs : o.status <;> simp

theorem handle_connection_parse_error (conn : conn_t) (env : Env) (w : World)
    (res : Response_t) (hp : env.conn_parse = some res) :
    handle_connection conn env w = ⟨w, [Event.conn_parse (some res),
      Event.conn_send_response res, Event.conn_delete], Status.returned⟩ := by
  simp [handle_connection, hp, conn_send_response]

/-- C5: after a successful parse `handle_connection` runs `handle_put` exactly when the
request is `REQUEST_PUT`, `handle_get` exactly when it is `REQUEST_GET`, and otherwise
`handle_unsupported`, which sends 501 and writes one audit line with status 501; exactly
one handler runs. When `conn_parse` returns an error response no handler runs and that
response is sent. -/
theorem handle_connection_dispatch (conn : conn_t) (env : Env) (w : World) :
    (env.conn_parse = none →
      (handler_calls (handle_connection conn env w).trace = [Handler.put] ↔
        conn.request = Request_t.REQUEST_PUT) ∧
      (handler_calls (handle_connection conn env w).trace = [Handler.get] ↔
        conn.request = Request_t.REQUEST_GET) ∧
      (handler_calls (handle_connection conn env w).trace = [Handler.unsupported] ↔
        (conn.request ≠ Request_t.REQUEST_PUT ∧ conn.request ≠ Request_t.REQUEST_GET)) ∧
      (conn.request ≠ Request_t.REQUEST_PUT → conn.request ≠ Request_t.REQUEST_GET →
        sent_responses (handle_connection conn env w).trace = [RESPONSE_NOT_IMPLEMENTED] ∧
        stderr_lines (handle_connection conn env w).trace = [expected_audit conn 501]) ∧
      (handler_calls (handle_connection conn env w).trace).length = 1) ∧
    (∀ res, env.conn_parse = some res →
      handler_calls (handle_connection conn env w).trace = [] ∧
      sent_responses (handle_connection conn env w).trace = [res]) := by
  constructor
  · intro hp
    obtain ⟨_, _, ht⟩ := handle_connection_parsed conn env w hp _ rfl
    by_cases h1 : conn.request = Request_t.REQUEST_PUT
    · have hc := handler_calls_put conn env w
      simp only [h1, if_true] at ht
      rcases ht with ht | ht <;>
      · rw [ht]
        simp [handler_calls, h1] at hc ⊢
        simp [hc]
    · by_cases h2 : conn.request = Request_t.REQUEST_GET
      · have hc := handler_calls_get conn env w
        simp only [h1, h2, if_true, if_false] at ht
        rcases ht with ht | ht <;>
        · rw [ht]
          simp [handler_calls, h1, h2] at hc ⊢
          simp [hc]
      · simp only [h1, h2, if_false, handle_unsupported_eq] at ht
        rcases ht with ht | ht <;>
        · rw [ht]
          simp [handler_calls, sent_responses, stderr_lines, h1, h2]
  · intro res hp
    rw [handle_connection_parse_error conn env w res hp]
    simp [handler_calls, sent_responses]

/-- C5, at `DELETE /a`: the parse succeeds, the request is neither PUT nor GET, and the
only handler that runs is `handle_unsupported`, answering and auditing 501. -/
theorem handle_connection_dispatch_witness :
    env_ok.conn_parse = none ∧
      conn_delete_a.request ≠ Request_t.REQUEST_PUT ∧
      conn_delete_a.request ≠ Request_t.REQUEST_GET ∧
      sent_responses (handle_connection conn_delete_a env_ok (World.init [])).trace =
        [RESPONSE_NOT_IMPLEMENTED] ∧
      stderr_lines (handle_connection conn_delete_a env_ok (World.init [])).trace =
        [bytes "DELETE,/a,501,0\n"] := by
  have h := ((handle_connection_dispatch conn_delete_a env_ok (World.init [])).1 rfl).2.2.2.1
    (by decide) (by decide)
  exact ⟨rfl, by decide, by decide, h.1, h.2⟩

/-- A list with a single element satisfying `p` splits around it in one way only. -/
theorem split_at_unique {α : Type} (p : α → Bool) (a b pre post : List α) (x y : α)
    (h : a ++ x :: b = pre ++ y :: post) (ha : ∀ e ∈ a, p e = false)
    (hb : ∀ e ∈ b, p e = false) (hy : p y = true) : pre = a ∧ post = b := by
  induction a generalizing pre with
  | nil =>
    cases pre with
    | nil =>
      simp only [List.nil_append, List.cons.injEq] at h
      exact ⟨rfl, h.2.symm⟩
    | cons z pre2 =>
      simp only [List.nil_append, List.cons_append, List.cons.injEq] at h
      have hmem : y ∈ b := by rw [h.2]; simp
      have := hb y hmem
      rw [hy] at this
      exact absurd this (by decide)
  | cons a0 a2 ih =>
    cases pre with
    | nil =>
      simp only [List.nil_append, List.cons_append, List.cons.injEq] at h
      have := ha a0 (by simp)
      rw [h.1, hy] at this
      exact absurd this (by decide)
    | cons z pre2 =>
      simp only [List.cons_append, List.cons.injEq] at h
      obtain ⟨e1, e2⟩ := ih pre2 h.2 (fun e he => ha e (by simp [he]))
      exact ⟨by rw [h.1, e1], e2⟩

/-- C9: in every execution of `handle_put`, whatever precedes the taking of the write
lock contains the successful return of `conn_recv_file` and the two successful `lseek`
calls, and nothing after it reads from the client socket; and when staging fails
(`mkstemp`, `conn_recv_file` or an `lseek` fails) the trace contains no use of the
registry and no lock operation. -/
theorem handle_put_lock_after_staging (conn : conn_t) (env : Env) (w : World) :
    (∀ pre post lock, (handle_put conn env w).trace = pre ++ Event.wrlock lock :: post →
      Event.conn_recv_file none ∈ pre ∧ Event.lseek_end true ∈ pre ∧
        Event.lseek_set true ∈ pre ∧ (∀ e ∈ pre, is_lock_event e = true →
          e = Event.get_uri_lock conn.uri (some lock)) ∧
        (∀ e ∈ post, is_socket_read e = false)) ∧
    ((Event.mkstemp false ∈ (handle_put conn env w).trace ∨
        (∃ res, Event.conn_recv_file (some res) ∈ (handle_put conn env w).trace) ∨
        Event.lseek_end false ∈ (handle_put conn env w).trace ∨
        Event.lseek_set false ∈ (handle_put conn env w).trace) →
      ∀ e ∈ (handle_put conn env w).trace, is_lock_event e = false) := by
  have key : ∀ (l : Nat) (rest : List Event), (∀ e ∈ rest, is_wrlock e = false) →
      (∀ e ∈ rest, is_socket_read e = false) →
      ∀ pre post lock,
        put_staged_trace conn.uri (some l) ++ Event.wrlock l :: rest =
          pre ++ Event.wrlock lock :: post →
        Event.conn_recv_file none ∈ pre ∧ Event.lseek_end true ∈ pre ∧
          Event.lseek_set true ∈ pre ∧ (∀ e ∈ pre, is_lock_event e = true →
            e = Event.get_uri_lock conn.uri (some lock)) ∧
          (∀ e ∈ post, is_socket_read e = false) := by
    intro l rest h1 h2 pre post lock heq
    obtain ⟨e1, e2⟩ := split_at_unique is_wrlock _ _ pre post _ _ heq
      (by simp [put_staged_trace, is_wrlock]) h1 rfl
    have hl : lock = l := by
      rw [e1, e2] at heq
      simpa using heq.symm
    subst e1 e2 hl
    refine ⟨by simp [put_staged_trace], by simp [put_staged_trace],
      by simp [put_staged_trace], ?_, h2⟩
    intro e he hlk
    simp only [put_staged_trace, List.mem_cons, List.mem_singleton, List.not_mem_nil,
      or_false] at he
    rcases he with h | h | h | h | h | h <;> subst h <;> simp_all [is_lock_event]
  rcases handle_put_cases conn env w with ⟨_, h⟩ | ⟨res, _, h⟩ | ⟨_, h⟩ | ⟨_, h⟩ | ⟨_, h⟩ |
    ⟨lock, _, _, h⟩ | ⟨lock, w1, e, _, _, _, h⟩ | ⟨lock, w1, k, _, _, _, h⟩ |
    ⟨lock, w1, _, _, h⟩
  · rw [h]
    refine ⟨?_, by simp [is_lock_event]⟩
    intro pre post lock heq
    have hm : Event.wrlock lock ∈ pre ++ Event.wrlock lock :: post := by simp
    rw [← heq] at hm
    simp at hm
  · rw [h]
    refine ⟨?_, by simp [is_lock_event]⟩
    intro pre post lock heq
    have hm : Event.wrlock lock ∈ pre ++ Event.wrlock lock :: post := by simp
    rw [← heq] at hm
    simp at hm
  · rw [h]
    refine ⟨?_, by simp [is_lock_event]⟩
    intro pre post lock heq
    have hm : Event.wrlock lock ∈ pre ++ Event.wrlock lock :: post := by simp
    rw [← heq] at hm
    simp at hm
  · rw [h]
    refine ⟨?_, by simp [is_lock_event]⟩
    intro pre post lock heq
    have hm : Event.wrlock lock ∈ pre ++ Event.wrlock lock :: post := by simp
    rw [← heq] at hm
    simp at hm
  · rw [h]
    refine ⟨?_, by simp [put_staged_trace]⟩
    intro pre post lock heq
    have hm : Event.wrlock lock ∈ pre ++ Event.wrlock lock :: post := by simp
    rw [← heq] at hm
    simp [put_staged_trace] at hm
  · rw [h]
    refine ⟨?_, by simp [put_staged_trace]⟩
    intro pre post lk heq
    have hm : Event.wrlock lk ∈ pre ++ Event.wrlock lk :: post := by simp
    rw [← heq] at hm
    simp [put_staged_trace] at hm
  · rw [h]
    refine ⟨?_, by simp [put_staged_trace]⟩
    exact key lock _ (by simp [is_wrlock]) (by simp [is_socket_read])
  · rw [h]
    refine ⟨?_, by simp [put_staged_trace]⟩
    exact key lock _ (by simp [is_wrlock]) (by simp [is_socket_read])
  · rw [h]
    refine ⟨?_, by simp [put_staged_trace]⟩
    exact key lock _ (by simp [is_wrlock]) (by simp [is_socket_read])

/-- C9, at a successful `PUT /a` from start-up: the trace splits at the write lock, the
staging lies before it and no socket read after it. -/
theorem handle_put_lock_after_staging_witness :
    (handle_put conn_put_a env_ok (World.init [])).trace =
        put_staged_trace (bytes "/a") (some 1) ++ Event.wrlock 1 ::
          [Event.access (bytes "/a") false, Event.open_ (bytes "/a") none,
            Event.pass_n_bytes true, Event.conn_send_response RESPONSE_CREATED,
            Event.stderr (bytes "PUT,/a,201,0\n"), Event.close Desc.fd, Event.unlock 1,
            Event.close Desc.temp, Event.unlink_temp] ∧
      Event.conn_recv_file none ∈ put_staged_trace (bytes "/a") (some 1) ∧
      ∀ e ∈ [Event.access (bytes "/a") false, Event.open_ (bytes "/a") none,
            Event.pass_n_bytes true, Event.conn_send_response RESPONSE_CREATED,
            Event.stderr (bytes "PUT,/a,201,0\n"), Event.close Desc.fd, Event.unlock 1,
            Event.close Desc.temp, Event.unlink_temp], is_socket_read e = false := by
  have heq : (handle_put conn_put_a env_ok (World.init [])).trace =
        put_staged_trace (bytes "/a") (some 1) ++ Event.wrlock 1 ::
          [Event.access (bytes "/a") false, Event.open_ (bytes "/a") none,
            Event.pass_n_bytes true, Event.conn_send_response RESPONSE_CREATED,
            Event.stderr (bytes "PUT,/a,201,0\n"), Event.close Desc.fd, Event.unlock 1,
            Event.close Desc.temp, Event.unlink_temp] := by decide
  have h := (handle_put_lock_after_staging conn_put_a env_ok (World.init [])).1 _ _ _ heq
  exact ⟨heq, h.1, h.2.2.2.2⟩

/-! ## Claims on the audit count and on the write lock -/

/-- When the copy into the destination succeeds, `handle_put` follows its last path. -/
theorem handle_put_success (conn : conn_t) (env : Env) (w : World)
    (hp : Event.pass_n_bytes true ∈ (handle_put conn env w).trace) :
    ∃ lock w1, (get_uri_lock conn.uri env.alloc w).1 = some lock ∧
      pthread_rwlock_wrlock lock (get_uri_lock conn.uri env.alloc w).2 = some w1 ∧
      handle_put conn env w =
        ⟨pthread_rwlock_unlock lock
            (file_store conn.uri (conn.body.take conn.body.length)
              (file_store conn.uri [] w1)),
          put_staged_trace conn.uri (some lock) ++
            [Event.wrlock lock, Event.access conn.uri (access_F_OK conn.uri w1),
              Event.open_ conn.uri none, Event.pass_n_bytes true,
              Event.conn_send_response
                (if access_F_OK conn.uri w1 then RESPONSE_OK else RESPONSE_CREATED),
              Event.stderr (expected_audit conn
                (if access_F_OK conn.uri w1 then RESPONSE_OK else RESPONSE_CREATED).code),
              Event.close Desc.fd, Event.unlock lock, Event.close Desc.temp,
              Event.unlink_temp],
          Status.returned⟩ := by
  rcases handle_put_cases conn env w with ⟨_, h⟩ | ⟨res, _, h⟩ | ⟨_, h⟩ | ⟨_, h⟩ | ⟨_, h⟩ |
    ⟨lock, _, _, h⟩ | ⟨lock, w1, e, _, _, _, h⟩ | ⟨lock, w1, k, _, _, _, h⟩ |
    ⟨lock, w1, h1, h2, h⟩
  · rw [h] at hp; simp at hp
  · rw [h] at hp; simp at hp
  · rw [h] at hp; simp at hp
  · rw [h] at hp; simp at hp
  · rw [h] at hp; simp [put_staged_trace] at hp
  · rw [h] at hp; simp [put_staged_trace] at hp
  · rw [h] at hp; simp [put_staged_trace] at hp
  · rw [h] at hp; simp [put_staged_trace] at hp
  · exact ⟨lock, w1, h1, h2, h⟩

/-- C2 as stated fails: a request the parser rejects with 400 is driven to completion,
the 400 is sent, and no audit line is written. -/
theorem audit_missing_on_parse_error :
    (handle_connection conn_get_a env_bad_request (World.init [])).status = Status.returned ∧
      sent_responses (handle_connection conn_get_a env_bad_request (World.init [])).trace =
        [RESPONSE_BAD_REQUEST] ∧
      stderr_lines (handle_connection conn_get_a env_bad_request (World.init [])).trace = [] ∧
      ¬ (stderr_lines
        (handle_connection conn_get_a env_bad_request (World.init [])).trace).length = 1 := by
  decide

/-- C2, amended: for every request that `handle_connection` drives to completion, when
`conn_parse` returns an error response that response is sent and no audit line is
written; when the request is dispatched to `handle_get` or `handle_unsupported`, or to a
`handle_put` whose copy into the destination succeeds, exactly one audit line is
written. -/
theorem handle_connection_audit_count (conn : conn_t) (env : Env) (w : World)
    (hret : (handle_connection conn env w).status = Status.returned)
    (hput : env.conn_parse = none → conn.request = Request_t.REQUEST_PUT →
      Event.pass_n_bytes true ∈ (handle_connection conn env w).trace) :
    (env.conn_parse = none →
      (stderr_lines (handle_connection conn env w).trace).length = 1) ∧
    (∀ res, env.conn_parse = some res →
      sent_responses (handle_connection conn env w).trace = [res] ∧
      stderr_lines (handle_connection conn env w).trace = []) := by
  constructor
  · intro hp
    obtain ⟨hs, _, ht⟩ := handle_connection_parsed conn env w hp _ rfl
    rw [hret] at hs
    by_cases h1 : conn.request = Request_t.REQUEST_PUT
    · have hmem := hput hp h1
      simp only [h1, if_true] at ht hs
      have hp2 : Event.pass_n_bytes true ∈ (handle_put conn env w).trace := by
        rcases ht with ht | ht <;>
        · rw [ht] at hmem
          simpa using hmem
      obtain ⟨lock, w1, _, _, h⟩ := handle_put_success conn env w hp2
      rw [h] at ht
      rcases ht with ht | ht <;>
      · rw [ht]
        simp [stderr_lines, put_staged_trace]
    · by_cases h2 : conn.request = Request_t.REQUEST_GET
      · simp only [h1, h2, if_true, if_false] at ht hs
        rcases handle_get_cases conn env w with ⟨_, h⟩ | ⟨lock, _, _, h⟩ |
          ⟨lock, w1, e, _, _, _, h⟩ | ⟨lock, w1, d, _, _, _, _, h⟩ |
          ⟨lock, w1, d, _, _, _, _, h⟩
        · rw [h] at hs; simp at hs
        · rw [h] at hs; simp at hs
        · rw [h] at ht
          rcases ht with ht | ht <;>
          · rw [ht]; simp [stderr_lines]
        · rw [h] at ht
          rcases ht with ht | ht <;>
          · rw [ht]; simp [stderr_lines]
        · rw [h] at ht
          rcases ht with ht | ht <;>
          · rw [ht]; simp [stderr_lines]
      · simp only [h1, h2, if_false, handle_unsupported_eq] at ht
        rcases ht with ht | ht <;>
        · rw [ht]; simp [stderr_lines]
  · intro res hp
    rw [handle_connection_parse_error conn env w res hp]
    simp [sent_responses, stderr_lines]

/-- C2, amended, at a successful `PUT /a` from start-up: one audit line. -/
theorem handle_connection_audit_count_witness :
    (handle_connection conn_put_a env_ok (World.init [])).status = Status.returned ∧
      Event.pass_n_bytes true ∈ (handle_connection conn_put_a env_ok (World.init [])).trace ∧
      (stderr_lines (handle_connection conn_put_a env_ok (World.init [])).trace).length = 1 :=
  ⟨by decide, by decide,
    (handle_connection_audit_count conn_put_a env_ok (World.init []) (by decide)
      (fun _ _ => by decide)).1 rfl⟩

/-- C7 fails on the code: when `pass_n_bytes` fails, `handle_put` returns after taking
the write lock without releasing it, while the path on which `open` fails does release
it; a later `PUT` of the same URI then waits for the lock. -/
theorem handle_put_keeps_write_lock :
    (handle_put conn_put_a env_copy_fails (World.init [])).status = Status.returned ∧
      Event.wrlock 1 ∈ (handle_put conn_put_a env_copy_fails (World.init [])).trace ∧
      Event.unlock 1 ∉ (handle_put conn_put_a env_copy_fails (World.init [])).trace ∧
      (handle_put conn_put_a env_copy_fails (World.init [])).world.held =
        [(1, LockMode.wr)] ∧
      Event.unlock 1 ∈ (handle_put conn_put_a env_open_fails (World.init [])).trace ∧
      (handle_put conn_put_a env_open_fails (World.init [])).world.held = [] ∧
      (handle_put conn_put_a env_ok
        (handle_put conn_put_a env_copy_fails (World.init [])).world).status =
          Status.blocked := by
  decide

/-- C8 fails on the code: when `get_uri_lock` returns `NULL`, `handle_get` passes the
`NULL` to `pthread_rwlock_rdlock` and neither answers nor audits, and `handle_put`
answers 500 without taking a lock but writes no audit line. -/
theorem lock_failure_not_handled :
    (get_uri_lock conn_get_a.uri env_malloc_null.alloc (World.init [])).1 = none ∧
      (handle_get conn_get_a env_malloc_null (World.init [])).trace =
        [Event.call Handler.get, Event.get_uri_lock (bytes "/a") none, Event.rdlock_null] ∧
      (handle_get conn_get_a env_malloc_null (World.init [])).status = Status.undefined ∧
      sent_responses (handle_get conn_get_a env_malloc_null (World.init [])).trace = [] ∧
      stderr_lines (handle_get conn_get_a env_malloc_null (World.init [])).trace = [] ∧
      sent_responses (handle_put conn_put_a env_malloc_null (World.init [])).trace =
        [RESPONSE_INTERNAL_SERVER_ERROR] ∧
      (∀ lock, Event.wrlock lock ∉
        (handle_put conn_put_a env_malloc_null (World.init [])).trace) ∧
      stderr_lines (handle_put conn_put_a env_malloc_null (World.init [])).trace = [] := by
  refine ⟨by decide, by decide, by decide, by decide, by decide, by decide, ?_, by decide⟩
  intro lock
  have h : (handle_put conn_put_a env_malloc_null (World.init [])).trace =
      put_staged_trace (bytes "/a") none ++
        [Event.conn_send_response RESPONSE_INTERNAL_SERVER_ERROR,
          Event.close Desc.temp, Event.unlink_temp] := by decide
  rw [h]
  simp [put_staged_trace]

/-! ## Claim on the status of a successful PUT -/

theorem get_uri_lock_files (uri : List Nat) (alloc : AllocOutcome) (w : World) :
    (get_uri_lock uri alloc w).2.files = w.files := by
  cases hf : chain_find uri (w.lock_table.getD (hash_uri uri) []) with
  | some l => rw [get_uri_lock_found uri alloc w l hf]
  | none =>
    by_cases ha : alloc = AllocOutcome.ok
    · subst ha
      rw [get_uri_lock_new uri w hf]
    · rw [get_uri_lock_null uri alloc w hf ha]

theorem pthread_rwlock_wrlock_files (lock : Nat) (w w1 : World)
    (h : pthread_rwlock_wrlock lock w = some w1) : w1.files = w.files := by
  unfold pthread_rwlock_wrlock at h
  split at h
  · exact Option.noConfusion h
  · simp only [Option.some.injEq] at h
    rw [← h]

/-- The file system seen by `access` once the write lock is held is the one at entry. -/
theorem access_at_lock (conn : conn_t) (env : Env) (w w1 : World) (lock : Nat)
    (h : pthread_rwlock_wrlock lock (get_uri_lock conn.uri env.alloc w).2 = some w1) :
    access_F_OK conn.uri w1 = access_F_OK conn.uri w := by
  unfold access_F_OK file_lookup
  rw [pthread_rwlock_wrlock_files lock _ w1 h, get_uri_lock_files]

/-- C3: when staging, the `open` of the destination and the copy all succeed, the
existence test `access(uri, F_OK)` follows the taking of the write lock at once, and
`handle_put` sends and audits 200 if the destination existed then and 201 otherwise.
Hence two successive successful PUTs of the same URI, absent at first, answer 201 and
then 200, and the file finally holds the second body. -/
theorem handle_put_status (conn : conn_t) (env : Env) (w : World)
    (hrecv : Event.conn_recv_file none ∈ (handle_put conn env w).trace)
    (hopen : Event.open_ conn.uri none ∈ (handle_put conn env w).trace)
    (hcopy : Event.pass_n_bytes true ∈ (handle_put conn env w).trace) :
    (∃ pre post lock, (handle_put conn env w).trace =
        pre ++ Event.wrlock lock :: Event.access conn.uri (access_F_OK conn.uri w) :: post) ∧
      (access_F_OK conn.uri w = true →
        sent_responses (handle_put conn env w).trace = [RESPONSE_OK] ∧
        stderr_lines (handle_put conn env w).trace = [expected_audit conn 200]) ∧
      (access_F_OK conn.uri w = false →
        sent_responses (handle_put conn env w).trace = [RESPONSE_CREATED] ∧
        stderr_lines (handle_put conn env w).trace = [expected_audit conn 201]) ∧
      file_lookup conn.uri (handle_put conn env w).world = some conn.body ∧
      (∀ (conn2 : conn_t) (env2 : Env),
        access_F_OK conn.uri w = false →
        strcmp conn2.uri conn.uri = 0 →
        Event.conn_recv_file none ∈ (handle_put conn2 env2 (handle_put conn env w).world).trace →
        Event.open_ conn2.uri none ∈ (handle_put conn2 env2 (handle_put conn env w).world).trace →
        Event.pass_n_bytes true ∈ (handle_put conn2 env2 (handle_put conn env w).world).trace →
        sent_responses (handle_put conn env w).trace = [RESPONSE_CREATED] ∧
        sent_responses (handle_put conn2 env2 (handle_put conn env w).world).trace =
          [RESPONSE_OK] ∧
        stderr_lines (handle_put conn2 env2 (handle_put conn env w).world).trace =
          [expected_audit conn2 200] ∧
        file_lookup conn.uri (handle_put conn2 env2 (handle_put conn env w).world).world =
          some conn2.body) := by
  have main : ∀ (c : conn_t) (e : Env) (v : World),
      Event.pass_n_bytes true ∈ (handle_put c e v).trace →
      (∃ pre post lock, (handle_put c e v).trace =
        pre ++ Event.wrlock lock :: Event.access c.uri (access_F_OK c.uri v) :: post) ∧
      sent_responses (handle_put c e v).trace =
        [if access_F_OK c.uri v then RESPONSE_OK else RESPONSE_CREATED] ∧
      stderr_lines (handle_put c e v).trace =
        [expected_audit c (if access_F_OK c.uri v then RESPONSE_OK else RESPONSE_CREATED).code] ∧
      (handle_put c e v).world.files = (cstr c.uri, c.body) :: (cstr c.uri, []) :: v.files := by
    intro c e v hc
    obtain ⟨lock, w1, h1, h2, h⟩ := handle_put_success c e v hc
    have ha := access_at_lock c e v w1 lock h2
    have hf : w1.files = v.files := by
      rw [pthread_rwlock_wrlock_files lock _ w1 h2, get_uri_lock_files]
    rw [h, ha]
    refine ⟨⟨put_staged_trace c.uri (some lock), _, lock, rfl⟩, ?_, ?_, ?_⟩
    · simp [sent_responses, put_staged_trace]
    · simp [stderr_lines, put_staged_trace]
    · simp [pthread_rwlock_unlock, file_store, hf]
  obtain ⟨m1, m2, m3, m4⟩ := main conn env w hcopy
  have look : ∀ (c : conn_t) (e : Env) (v : World),
      (handle_put c e v).world.files = (cstr c.uri, c.body) :: (cstr c.uri, []) :: v.files →
      ∀ u, cstr u = cstr c.uri → file_lookup u (handle_put c e v).world = some c.body := by
    intro c e v hfiles u hu
    unfold file_lookup
    rw [hfiles, hu]
    simp [List.lookup]
  refine ⟨m1, ?_, ?_, look conn env w m4 conn.uri rfl, ?_⟩
  · intro hx
    rw [m2, m3, hx]
    exact ⟨rfl, rfl⟩
  · intro hx
    rw [m2, m3, hx]
    exact ⟨rfl, rfl⟩
  · have _ := hrecv
    have _ := hopen
    intro conn2 env2 habsent hsame _ _ hcopy2
    have hu : cstr conn2.uri = cstr conn.uri := (strcmp_eq_zero_iff _ _).1 hsame
    obtain ⟨_, n2, n3, n4⟩ := main conn2 env2 (handle_put conn env w).world hcopy2
    have hex : access_F_OK conn2.uri (handle_put conn env w).world = true := by
      unfold access_F_OK
      rw [look conn env w m4 conn2.uri hu]
      rfl
    rw [m2, n2, n3, hex, habsent]
    refine ⟨rfl, rfl, rfl, ?_⟩
    exact look conn2 env2 _ n4 conn.uri hu.symm

/-- C3, at `PUT /a` with body `hello` from start-up, followed by `PUT /a` with body `bye`:
201 and then 200, and `/a` holds `bye`. -/
theorem handle_put_status_witness :
    Event.conn_recv_file none ∈ (handle_put conn_put_a env_ok (World.init [])).trace ∧
      Event.open_ conn_put_a.uri none ∈ (handle_put conn_put_a env_ok (World.init [])).trace ∧
      Event.pass_n_bytes true ∈ (handle_put conn_put_a env_ok (World.init [])).trace ∧
      access_F_OK conn_put_a.uri (World.init []) = false ∧
      sent_responses (handle_put conn_put_a env_ok (World.init [])).trace =
        [RESPONSE_CREATED] ∧
      sent_responses (handle_put { conn_put_a with body := bytes "bye" } env_ok
        (handle_put conn_put_a env_ok (World.init [])).world).trace = [RESPONSE_OK] ∧
      file_lookup (bytes "/a") (handle_put { conn_put_a with body := bytes "bye" } env_ok
        (handle_put conn_put_a env_ok (World.init [])).world).world = some (bytes "bye") := by
  have h := (handle_put_status conn_put_a env_ok (World.init []) (by decide) (by decide)
    (by decide)).2.2.2.2 { conn_put_a with body := bytes "bye" } env_ok (by decide)
    (by decide) (by decide) (by decide) (by decide)
  exact ⟨by decide, by decide, by decide, by decide, h.1, h.2.1, h.2.2.2⟩

end HttpServer
